import Mathlib

/-!
Shallow embedding of the `scor` library (src/scor.ts and the variant
snapshot src/unnamed/part_001, which additionally carries a `weight`
field on a Score and a Score-based `distributeWeights`).

JavaScript numbers are modelled by `JSNum` (a finite rational, `NaN`,
or an infinity); an optional number (`number | null | undefined` at
runtime) by `JSVal := Option JSNum`, where `none` stands for both
`undefined` and `null` (the source's `isNumeric` rejects both the same
way).  Thrown errors are modelled by `Except JSError`.  Floating-point
arithmetic is modelled by exact rational arithmetic: the embedded
functions perform the same operations the source performs, without
rounding.
-/

namespace ScorSpec

/-- A JavaScript `number`: a finite value, `NaN`, `Infinity` or `-Infinity`. -/
inductive JSNum where
  | num (q : ℚ)
  | nan
  | posInf
  | negInf
deriving DecidableEq

/-- A JavaScript `number | null | undefined`; `none` is `undefined`/`null`. -/
abbrev JSVal := Option JSNum

/-- Wraps a finite rational as a `JSVal`. -/
def jsq (q : ℚ) : JSVal := some (JSNum.num q)

/-- Source `isNumeric`: `typeof x === "number" && -Infinity < x && x < Infinity`.
`null`/`undefined` fail the `typeof` test; `NaN` fails both comparisons;
the infinities fail one comparison each; every finite number passes. -/
def isNumeric : JSVal → Bool
  | some (JSNum.num _) => true
  | _ => false

/-- A thrown JavaScript error: the source only throws `RangeError` and
`TypeError` (with a message). -/
inductive JSError where
  | rangeError (msg : String)
  | typeError (msg : String)
deriving DecidableEq

/-- Source constant `INVALID_RANGE`. -/
def INVALID_RANGE : String := "Invalid range"

/-- Source constant `MISSING_TO_VALUE`. -/
def MISSING_TO_VALUE : String := "Missing toValue"

/-- Source `ToValue<T>`: an extractor from an item to a number (at runtime
it may also produce `null`/`undefined`, which the library filters). -/
abbrev ToValue (T : Type) : Type := T → JSVal

/-- The options record accepted by the constructor `scor`
(`{min?, max?, toValue?, weight?}`; the `weight` option exists in the
src/unnamed/part_001 and part_002 snapshots, the main src/scor.ts simply
never receives one, i.e. `weight = none`). -/
structure OptionsArg (T : Type) where
  min : JSVal
  max : JSVal
  toValue : Option (ToValue T)
  weight : JSVal

/-- A constructed Score: the four stored (frozen) fields plus the two
behaviour closures built by the constructor. -/
structure Scor (T : Type) where
  min : JSVal
  max : JSVal
  toValue : Option (ToValue T)
  weight : JSVal
  forValue : JSVal → Except JSError ℚ
  forItem : T → Except JSError ℚ

/-- Source check on a provided weight:
`weight !== undefined && (!isNumeric(weight) || weight < 0)`. -/
def isInvalidWeight : JSVal → Bool
  | none => false
  | some (JSNum.num q) => decide (q < 0)
  | some _ => true

/-- The `forValue` closure built for a valid non-empty range `mn < mx`.
Source:
`if (value <= min || !isNumeric(value)) return 0;`
`if (value >= max) return 1;`
`return (value - min) / maxFromZero;`
Every non-finite value returns 0: `-Infinity <= min` is true, and for
`NaN`, `Infinity`, `null` and `undefined` the `!isNumeric(value)` test
fires (comparisons against `NaN` are all false, `undefined` compares as
`NaN` and `null` as 0 but `!isNumeric` already catches them before the
interpolation is reached). -/
def rangedForValue (mn mx : ℚ) : JSVal → ℚ
  | some (JSNum.num v) =>
      if v ≤ mn then 0
      else if mx ≤ v then 1
      else (v - mn) / (mx - mn)
  | _ => 0

/-- The constructor `scor` (part_001/part_002 form, which validates the
`weight` option as well; src/scor.ts is the same function without the
weight guard, i.e. the `o.weight = none` instance). -/
def scor {T : Type} (o : OptionsArg T) : Except JSError (Scor T) :=
  if o.min.isSome && !(isNumeric o.min) then
    Except.error (JSError.rangeError (INVALID_RANGE ++ ": Expected min to be numeric"))
  else if o.max.isSome && !(isNumeric o.max) then
    Except.error (JSError.rangeError (INVALID_RANGE ++ ": Expected max to be numeric"))
  else if isInvalidWeight o.weight then
    Except.error (JSError.rangeError (INVALID_RANGE ++ ": Expected weight to be numeric and >= 0"))
  else
    match o.min, o.max with
    | some (JSNum.num mn), some (JSNum.num mx) =>
      if mx < mn then
        Except.error (JSError.rangeError (INVALID_RANGE ++ ": Expected min < max"))
      else if mn = mx then
        Except.ok
          { min := o.min, max := o.max, toValue := o.toValue, weight := o.weight,
            forValue := fun _ => Except.ok 0,
            forItem := fun _ => Except.ok 0 }
      else
        Except.ok
          { min := o.min, max := o.max, toValue := o.toValue, weight := o.weight,
            forValue := fun v => Except.ok (rangedForValue mn mx v),
            forItem :=
              match o.toValue with
              | some tv => fun item => Except.ok (rangedForValue mn mx (tv item))
              | none => fun _ => Except.error (JSError.typeError MISSING_TO_VALUE) }
    | _, _ =>
      -- reached exactly when `min === undefined || max === undefined`:
      -- a defined non-finite bound was already rejected by the guards above
      Except.ok
        { min := o.min, max := o.max, toValue := o.toValue, weight := o.weight,
          forValue := fun _ => Except.error (JSError.rangeError INVALID_RANGE),
          forItem := fun _ => Except.error (JSError.rangeError INVALID_RANGE) }

/-- Source `items.map(toValue).filter(isNumeric)`, with the surviving
(finite) values returned as rationals. -/
def numericFilter (vals : List JSVal) : List ℚ :=
  vals.filterMap fun v =>
    match v with
    | some (JSNum.num q) => some q
    | _ => none

/-- Source `getItemRange`: maps, filters the non-finite values out, fails
when nothing remains, otherwise returns `[Math.min(...), Math.max(...)]`. -/
def getItemRange {T : Type} (toValue : ToValue T) (items : List T) :
    Except JSError (ℚ × ℚ) :=
  match numericFilter (items.map toValue) with
  | [] =>
      Except.error
        (JSError.rangeError (INVALID_RANGE ++ ": Expected at least one numeric value."))
  | v :: vs => Except.ok (vs.foldl min v, vs.foldl max v)

/-- Source `scorForItems`: infer the range, then build the Score with it
and the same extractor (no weight is passed). -/
def scorForItems {T : Type} (toValue : ToValue T) (items : List T) :
    Except JSError (Scor T) := do
  let r ← getItemRange toValue items
  scor { min := jsq r.1, max := jsq r.2, toValue := some toValue, weight := none }

/-- Source `setMin` (part_001 form, carrying `weight` over): rebuilds via
the constructor with the new `min` and all other fields of the Score. -/
def setMin {T : Type} (s : Scor T) (mn : JSNum) : Except JSError (Scor T) :=
  scor { min := some mn, max := s.max, toValue := s.toValue, weight := s.weight }

/-- Source `setMax`. -/
def setMax {T : Type} (s : Scor T) (mx : JSNum) : Except JSError (Scor T) :=
  scor { min := s.min, max := some mx, toValue := s.toValue, weight := s.weight }

/-- Source `setRange`. -/
def setRange {T : Type} (s : Scor T) (mn mx : JSNum) : Except JSError (Scor T) :=
  scor { min := some mn, max := some mx, toValue := s.toValue, weight := s.weight }

/-- Source `setToValue`. -/
def setToValue {T : Type} (s : Scor T) (tv : ToValue T) : Except JSError (Scor T) :=
  scor { min := s.min, max := s.max, toValue := some tv, weight := s.weight }

/-- Source `setWeight` (part_001): `undefined` (`none`) is allowed, to
restore equal distribution. -/
def setWeight {T : Type} (s : Scor T) (w : JSVal) : Except JSError (Scor T) :=
  scor { min := s.min, max := s.max, toValue := s.toValue, weight := w }

/-- Source `toNumericSum`: adds `value` when it is numeric, skips it
otherwise.  The source throws when `sum` itself is not numeric; with an
exact rational accumulator the sum of finite values is always finite, so
that branch cannot fire in the embedding. -/
def toNumericSum (sum : ℚ) (value : JSVal) : ℚ :=
  match value with
  | some (JSNum.num q) => sum + q
  | _ => sum

/-- Source reducer `sumAndCountWeights`: throws on a defined weight that
is not finite or is negative, adds numeric weights into the sum and
counts the undefined ones. -/
def sumAndCountWeights (acc : ℚ × ℕ) (weight : JSVal) : Except JSError (ℚ × ℕ) :=
  if isInvalidWeight weight then
    Except.error
      (JSError.rangeError (INVALID_RANGE ++ ": Expected all (defined) weights to be numeric and >= 0"))
  else
    match weight with
    | some (JSNum.num q) => Except.ok (acc.1 + q, acc.2)
    | _ => Except.ok (acc.1, acc.2 + 1)

/-- Source `assertWeights`: `TypeError` on an empty list, reduce with
`sumAndCountWeights`, `RangeError` when everything is defined but sums
to 0, otherwise `true` iff no weight is undefined. -/
def assertWeights (weights : List JSVal) : Except JSError Bool :=
  if weights.length = 0 then
    Except.error (JSError.typeError "Expected at least one weight.")
  else do
    let sc ← weights.foldlM sumAndCountWeights (0, 0)
    if sc.2 = 0 then
      if sc.1 = 0 then
        Except.error
          (JSError.rangeError (INVALID_RANGE ++ ": expected sum to be > 0 when all weights are defined."))
      else Except.ok true
    else Except.ok false

/-- Source `toNumericWeight` closure inside `distributeWeights`. -/
def toNumericWeight (perUndefinedWeight : ℚ) (w : JSVal) : JSVal :=
  if isNumeric w then w else jsq perUndefinedWeight

/-- Source `distributeWeights` on a list (src/scor.ts): if `assertWeights`
holds, the input itself is returned; otherwise the reduce is re-run and
each undefined weight is replaced by `remaining / undefinedWeights` when
`remaining = 1 - numericSum` is positive, else by 0. -/
def distributeWeights (weights : List JSVal) : Except JSError (List JSVal) := do
  let allDefined ← assertWeights weights
  if allDefined then Except.ok weights
  else do
    let sc ← weights.foldlM sumAndCountWeights (0, 0)
    let remaining := 1 - sc.1
    let perUndefinedWeight := if 0 < remaining then remaining / (sc.2 : ℚ) else 0
    Except.ok (weights.map (toNumericWeight perUndefinedWeight))

/-- Source `distributeWeights` on a dict, modelled as an association list
in insertion order (`Object.values`/`Object.entries` enumerate in that
order): same computation over the values, the keys are preserved. -/
def distributeWeightsDict (weights : List (String × JSVal)) :
    Except JSError (List (String × JSVal)) := do
  let allDefined ← assertWeights (weights.map Prod.snd)
  if allDefined then Except.ok weights
  else do
    let sc ← (weights.map Prod.snd).foldlM sumAndCountWeights (0, 0)
    let remaining := 1 - sc.1
    let perUndefinedWeight := if 0 < remaining then remaining / (sc.2 : ℚ) else 0
    Except.ok (weights.map fun kv => (kv.1, toNumericWeight perUndefinedWeight kv.2))

/-- Source `distributeWeights` of the part_001 snapshot, the variant that
distributes over the `weight` field of Score objects.  Note it performs
no validation at all: when no weight is undefined (`!withoutWeight`) the
input is returned unchanged, the empty list included; `setWeight` (hence
the constructor) is only reached for scores whose weight is undefined. -/
def distributeWeightsScores {T : Type} (scores : List (Scor T)) :
    Except JSError (List (Scor T)) :=
  let weights := scores.map Scor.weight
  let withoutWeight := weights.length - (weights.filter isNumeric).length
  if withoutWeight = 0 then Except.ok scores
  else
    let remaining := 1 - weights.foldl toNumericSum 0
    scores.mapM fun s =>
      if isNumeric s.weight then Except.ok s
      else setWeight s (jsq (if 0 < remaining then remaining / (withoutWeight : ℚ) else 0))

/-- Numeric value of a weight entry; after `assertWeights` returned `true`
every entry is a finite number, so the fallback 0 is never used there. -/
def toQ (w : JSVal) : ℚ :=
  match w with
  | some (JSNum.num q) => q
  | _ => 0

/-- Source `weighted` closure of `createToMean`: with weights, multiply by
`weightsList[index]` (the index is always in range, the lengths were
checked equal); without weights, the identity. -/
def weightedStep (weights : Option (List JSVal)) (value : ℚ) (idx : ℕ) : ℚ :=
  match weights with
  | some ws => value * toQ (ws.getD idx none)
  | none => value

/-- Source `scores.reduce((sum, score, i) => sum + weighted(score.forItem(item), i), 0)`:
a left fold threading the running index, propagating whatever
`forItem` throws. -/
def weightedSumFrom {T : Type} (weights : Option (List JSVal)) (item : T) :
    ℕ → List (Scor T) → ℚ → Except JSError ℚ
  | _, [], sum => Except.ok sum
  | i, s :: rest, sum => do
      let v ← s.forItem item
      weightedSumFrom weights item (i + 1) rest (sum + weightedStep weights v i)

/-- Source `createToMean`, the `if (weights)` validation block: length
match, then `assertWeights` (whose `false` answer — an undefined weight —
is the `RangeError`). -/
def validateWeights {T : Type} (scores : List (Scor T)) :
    Option (List JSVal) → Except JSError Unit
  | some ws =>
      if ws.length ≠ scores.length then
        Except.error (JSError.typeError "Expected scores and weights to have same length.")
      else do
        let ok ← assertWeights ws
        if ok then Except.ok ()
        else Except.error (JSError.rangeError "Expected all weights to be numeric.")
  | none => Except.ok ()

/-- Source `createToMean`, the returned closure of the general (more than
one Score) case: the indexed weighted reduce over `divisor`, which is the
weights' numeric sum when weights were supplied and the Score count
otherwise. -/
def meanClosure {T : Type} (scores : List (Scor T)) (weights : Option (List JSVal))
    (item : T) : Except JSError ℚ := do
  let sum ← weightedSumFrom weights item 0 scores 0
  Except.ok (sum /
    (match weights with
     | some ws => ws.foldl toNumericSum 0
     | none => (scores.length : ℚ)))

/-- Body of source `createToMean` after `scores` and `weightsList` have
been extracted from the list/dict argument; `weights = some ws` when the
caller supplied a weight collection (`ws` being the extracted list). -/
def createToMeanCore {T : Type} (scores : List (Scor T))
    (weights : Option (List JSVal)) : Except JSError (T → Except JSError ℚ) := do
  if scores.length = 0 then
    Except.error (JSError.typeError "Expected at least one element in scores.")
  else if scores.any (fun s => s.toValue.isNone || !(isNumeric s.min) || !(isNumeric s.max)) then
    Except.error
      (JSError.typeError "Expected all scores to have toValue, numeric min and max.")
  else do
    let _ ← validateWeights scores weights
    match scores with
    | [s] => Except.ok s.forItem
    | _ => Except.ok (meanClosure scores weights)

/-- Source `createToMean` on lists: `weightsList` is the weights argument
itself, passed through to the shared body. -/
def createToMean {T : Type} (scores : List (Scor T))
    (weights : Option (List JSVal)) : Except JSError (T → Except JSError ℚ) :=
  createToMeanCore scores weights

/-- Source `hasOwnProperty` test plus access on a weights dict. -/
def lookupVal (weights : List (String × JSVal)) (key : String) : Option JSVal :=
  (weights.find? fun kv => kv.1 == key).map Prod.snd

/-- Source `createToMean` on dicts (association lists in insertion order):
`weightsList` is built by looking every key of `scores` up in `weights`
(a missing key is a `TypeError`), before any other validation; then the
shared body runs on the values. -/
def createToMeanDict {T : Type} (scores : List (String × Scor T))
    (weights : Option (List (String × JSVal))) :
    Except JSError (T → Except JSError ℚ) := do
  let weightsList ← match weights with
    | some ws =>
        (scores.map Prod.fst).mapM fun key =>
          match lookupVal ws key with
          | some w => Except.ok w
          | none =>
              Except.error (JSError.typeError "Expected same keys in scores and weights.")
    | none => Except.ok []
  createToMeanCore (scores.map Prod.snd) (weights.map fun _ => weightsList)

lemma isNumeric_jsq (q : ℚ) : isNumeric (jsq q) = true := rfl

lemma isNumeric_none : isNumeric none = false := rfl

/-- Inversion of a successful construction: the four fields are copied
from the options, and the behaviour closures are the ones of exactly one
of the three construction branches (incomplete range, zero-length range,
valid range — the latter with or without `toValue`). -/
theorem scor_ok_inv {T : Type} {o : OptionsArg T} {s : Scor T}
    (h : scor o = Except.ok s) :
    s.min = o.min ∧ s.max = o.max ∧ s.toValue = o.toValue ∧ s.weight = o.weight ∧
    (((o.min = none ∨ o.max = none) ∧
        s.forValue = (fun _ => Except.error (JSError.rangeError INVALID_RANGE)) ∧
        s.forItem = (fun _ => Except.error (JSError.rangeError INVALID_RANGE))) ∨
     ((∃ a : ℚ, o.min = jsq a ∧ o.max = jsq a) ∧
        s.forValue = (fun _ => Except.ok 0) ∧ s.forItem = (fun _ => Except.ok 0)) ∨
     (∃ mn mx : ℚ, o.min = jsq mn ∧ o.max = jsq mx ∧ mn < mx ∧
        s.forValue = (fun v => Except.ok (rangedForValue mn mx v)) ∧
        ((∃ tv, o.toValue = some tv ∧
            s.forItem = fun item => Except.ok (rangedForValue mn mx (tv item))) ∨
         (o.toValue = none ∧
            s.forItem = fun _ => Except.error (JSError.typeError MISSING_TO_VALUE))))) := by
  unfold scor at h
  split_ifs at h with h1 h2 h3
  split at h
  case _ mn mx hmin hmax =>
    split_ifs at h with hlt heq
    · cases h
      refine ⟨rfl, rfl, rfl, rfl, Or.inr (Or.inl ?_)⟩
      exact ⟨⟨mn, hmin, by rw [hmax, heq]; rfl⟩, rfl, rfl⟩
    · split at h
      case _ tv htv =>
        cases h
        refine ⟨rfl, rfl, rfl, rfl, Or.inr (Or.inr ⟨mn, mx, hmin, hmax, ?_, rfl, ?_⟩)⟩
        · exact lt_of_le_of_ne (not_lt.mp hlt) heq
        · exact Or.inl ⟨tv, htv, rfl⟩
      case _ htv =>
        cases h
        refine ⟨rfl, rfl, rfl, rfl, Or.inr (Or.inr ⟨mn, mx, hmin, hmax, ?_, rfl, ?_⟩)⟩
        · exact lt_of_le_of_ne (not_lt.mp hlt) heq
        · exact Or.inr ⟨htv, rfl⟩
  case _ hnot =>
    cases h
    refine ⟨rfl, rfl, rfl, rfl, Or.inl ⟨?_, rfl, rfl⟩⟩
    match homin : o.min, homax : o.max with
    | none, _ => exact Or.inl rfl
    | _, none => exact Or.inr rfl
    | some (JSNum.num a), some (JSNum.num b) => exact absurd homax (hnot a b homin)
    | some JSNum.nan, _ => simp [homin, isNumeric] at h1
    | some JSNum.posInf, _ => simp [homin, isNumeric] at h1
    | some JSNum.negInf, _ => simp [homin, isNumeric] at h1
    | some (JSNum.num _), some JSNum.nan => simp [homax, isNumeric] at h2
    | some (JSNum.num _), some JSNum.posInf => simp [homax, isNumeric] at h2
    | some (JSNum.num _), some JSNum.negInf => simp [homax, isNumeric] at h2

/-- A successful construction implies all three option guards were false. -/
lemma scor_ok_guards {T : Type} {o : OptionsArg T} {s : Scor T}
    (h : scor o = Except.ok s) :
    (o.min.isSome && !(isNumeric o.min)) = false ∧
    (o.max.isSome && !(isNumeric o.max)) = false ∧
    isInvalidWeight o.weight = false := by
  unfold scor at h
  split_ifs at h with h1 h2 h3
  exact ⟨by simpa using h1, by simpa using h2, by simpa using h3⟩

/-- Rebuilding a constructed Score through the constructor with the same
four fields yields the Score back (the closures are rebuilt identically
from identical fields). -/
lemma scor_rebuild {T : Type} {o : OptionsArg T} {s : Scor T}
    (h : scor o = Except.ok s) :
    scor { min := s.min, max := s.max, toValue := s.toValue, weight := s.weight } =
      Except.ok s := by
  obtain ⟨h1, h2, h3, h4, -⟩ := scor_ok_inv h
  rw [h1, h2, h3, h4]
  exact h

/-- Replacing the weight of a constructed Score with a valid weight
succeeds and changes nothing but the `weight` field (the closures do not
depend on the weight). -/
lemma setWeight_ok {T : Type} {o : OptionsArg T} {s : Scor T}
    (h : scor o = Except.ok s) {w : JSVal} (hw : isInvalidWeight w = false) :
    setWeight s w =
      Except.ok { min := s.min, max := s.max, toValue := s.toValue, weight := w,
                  forValue := s.forValue, forItem := s.forItem } := by
  obtain ⟨hg1, hg2, -⟩ := scor_ok_guards h
  obtain ⟨h1, h2, h3, h4, hcases⟩ := scor_ok_inv h
  unfold setWeight scor
  simp only [h1, h2, h3, hg1, hg2, hw, Bool.false_eq_true, if_false]
  rcases hcases with ⟨hnone, hfv, hfi⟩ | ⟨⟨a, hmn, hmx⟩, hfv, hfi⟩ |
    ⟨mn, mx, hmn, hmx, hlt, hfv, hfi⟩
  · rcases hnone with hn | hn <;> rw [hn] <;>
      (cases homax : o.max with
       | none => simp [hfv, hfi]
       | some b => cases b <;> simp_all [isNumeric, jsq, hfv, hfi])
  · rw [hmn, hmx]
    simp [jsq, hfv, hfi]
  · rw [hmn, hmx]
    simp only [jsq]
    rw [if_neg (by exact not_lt.mpr (le_of_lt hlt)), if_neg (ne_of_lt hlt)]
    rcases hfi with ⟨tv, htv, hfi⟩ | ⟨htv, hfi⟩ <;> rw [h3] at * <;> simp [htv, hfv, hfi]

/-- The scoring function of a valid non-empty range stays in `[0, 1]`. -/
lemma rangedForValue_bounds (mn mx : ℚ) (hlt : mn < mx) (v : JSVal) :
    0 ≤ rangedForValue mn mx v ∧ rangedForValue mn mx v ≤ 1 := by
  match v with
  | none | some JSNum.nan | some JSNum.posInf | some JSNum.negInf =>
      simp [rangedForValue]
  | some (JSNum.num q) =>
      simp only [rangedForValue]
      split_ifs with h1 h2
      · norm_num
      · norm_num
      · constructor
        · apply div_nonneg <;> linarith
        · rw [div_le_one (by linarith)]
          linarith

/-- A left `min` fold lands on a member of `a :: l` and bounds all of them. -/
lemma foldl_min_spec (l : List ℚ) (a : ℚ) :
    l.foldl min a ∈ a :: l ∧ ∀ x ∈ a :: l, l.foldl min a ≤ x := by
  induction l generalizing a with
  | nil => simp
  | cons b l ih =>
      obtain ⟨ihm, ihb⟩ := ih (min a b)
      rw [List.foldl_cons]
      constructor
      · rcases List.mem_cons.mp ihm with hm | hm
        · rw [hm]
          rcases min_choice a b with hc | hc <;> rw [hc] <;> simp
        · simp [hm]
      · intro x hx
        have hinit : List.foldl min (min a b) l ≤ min a b :=
          ihb _ (List.mem_cons_self _ _)
        simp only [List.mem_cons] at hx
        rcases hx with rfl | rfl | hx
        · exact le_trans hinit (min_le_left _ _)
        · exact le_trans hinit (min_le_right _ _)
        · exact ihb _ (List.mem_cons_of_mem _ hx)

/-- A left `max` fold lands on a member of `a :: l` and dominates all of them. -/
lemma foldl_max_spec (l : List ℚ) (a : ℚ) :
    l.foldl max a ∈ a :: l ∧ ∀ x ∈ a :: l, x ≤ l.foldl max a := by
  induction l generalizing a with
  | nil => simp
  | cons b l ih =>
      obtain ⟨ihm, ihb⟩ := ih (max a b)
      rw [List.foldl_cons]
      constructor
      · rcases List.mem_cons.mp ihm with hm | hm
        · rw [hm]
          rcases max_choice a b with hc | hc <;> rw [hc] <;> simp
        · simp [hm]
      · intro x hx
        have hinit : max a b ≤ List.foldl max (max a b) l :=
          ihb _ (List.mem_cons_self _ _)
        simp only [List.mem_cons] at hx
        rcases hx with rfl | rfl | hx
        · exact le_trans (le_max_left _ _) hinit
        · exact le_trans (le_max_right _ _) hinit
        · exact ihb _ (List.mem_cons_of_mem _ hx)

/-- Constructing with a finite ordered range and an extractor succeeds, and
both scoring closures of the result are total. -/
lemma scor_valid_range {T : Type} (mn mx : ℚ) (hle : mn ≤ mx) (tv : ToValue T) :
    ∃ s : Scor T,
      scor { min := jsq mn, max := jsq mx, toValue := some tv, weight := none } =
        Except.ok s ∧
      (∀ v, ∃ q, s.forValue v = Except.ok q) ∧
      (∀ it, ∃ q, s.forItem it = Except.ok q) := by
  rcases eq_or_lt_of_le hle with heq | hlt
  · subst heq
    refine ⟨{ min := jsq mn, max := jsq mn, toValue := some tv, weight := none,
              forValue := fun _ => Except.ok 0, forItem := fun _ => Except.ok 0 },
            ?_, fun v => ⟨0, rfl⟩, fun it => ⟨0, rfl⟩⟩
    unfold scor
    simp [isNumeric, isInvalidWeight, jsq]
  · refine ⟨{ min := jsq mn, max := jsq mx, toValue := some tv, weight := none,
              forValue := fun v => Except.ok (rangedForValue mn mx v),
              forItem := fun item => Except.ok (rangedForValue mn mx (tv item)) },
            ?_, fun v => ⟨rangedForValue mn mx v, rfl⟩,
            fun it => ⟨rangedForValue mn mx (tv it), rfl⟩⟩
    unfold scor
    simp [isNumeric, isInvalidWeight, jsq, not_lt.mpr hle, ne_of_lt hlt]

/-- C1: for every Score constructed with finite `min` and `max`: if
`min = max`, `forValue` and `forItem` return 0 for every input — with no
assumption on (and hence no invocation of) `toValue`; if `min < max`,
`forValue value` is 0 when `value` is not a finite number or `value ≤ min`,
1 when `value ≥ max`, and otherwise the exact (unrounded) quotient
`(value - min) / (max - min)`. -/
theorem C1_forValue_piecewise {T : Type} (o : OptionsArg T) (s : Scor T)
    (h : scor o = Except.ok s) :
    (∀ a : ℚ, o.min = jsq a → o.max = jsq a →
       (∀ v, s.forValue v = Except.ok 0) ∧ (∀ it, s.forItem it = Except.ok 0)) ∧
    (∀ mn mx : ℚ, o.min = jsq mn → o.max = jsq mx → mn < mx →
       (∀ v, isNumeric v = false → s.forValue v = Except.ok 0) ∧
       (∀ q : ℚ, q ≤ mn → s.forValue (jsq q) = Except.ok 0) ∧
       (∀ q : ℚ, mx ≤ q → s.forValue (jsq q) = Except.ok 1) ∧
       (∀ q : ℚ, mn < q → q < mx →
          s.forValue (jsq q) = Except.ok ((q - mn) / (mx - mn)))) := by
  obtain ⟨-, -, -, -, hcases⟩ := scor_ok_inv h
  rcases hcases with ⟨hnone, -, -⟩ | ⟨⟨a, hmn, hmx⟩, hfv, hfi⟩ |
    ⟨mn, mx, hmn, hmx, hlt, hfv, -⟩
  · constructor
    · intro a hmn hmx
      rcases hnone with hn | hn
      · rw [hn] at hmn
        exact absurd hmn (by simp [jsq])
      · rw [hn] at hmx
        exact absurd hmx (by simp [jsq])
    · intro mn mx hmn hmx _
      rcases hnone with hn | hn
      · rw [hn] at hmn
        exact absurd hmn (by simp [jsq])
      · rw [hn] at hmx
        exact absurd hmx (by simp [jsq])
  · constructor
    · intro a' _ _
      exact ⟨fun v => by rw [hfv], fun it => by rw [hfi]⟩
    · intro mn mx hmn' hmx' hlt
      rw [hmn] at hmn'
      rw [hmx] at hmx'
      simp only [jsq, Option.some.injEq, JSNum.num.injEq] at hmn' hmx'
      exact (False.elim (by linarith))
  · constructor
    · intro a hmn' hmx'
      rw [hmn] at hmn'
      rw [hmx] at hmx'
      simp only [jsq, Option.some.injEq, JSNum.num.injEq] at hmn' hmx'
      exact (False.elim (by linarith))
    · intro mn' mx' hmn' hmx' _
      rw [hmn] at hmn'
      rw [hmx] at hmx'
      simp only [jsq, Option.some.injEq, JSNum.num.injEq] at hmn' hmx'
      subst hmn'
      subst hmx'
      refine ⟨?_, ?_, ?_, ?_⟩
      · intro v hv
        rw [hfv]
        match v, hv with
        | none, _ | some JSNum.nan, _ | some JSNum.posInf, _ | some JSNum.negInf, _ =>
            simp [rangedForValue]
      · intro q hq
        rw [hfv]
        simp [rangedForValue, jsq, hq]
      · intro q hq
        rw [hfv]
        simp only [rangedForValue, jsq]
        rw [if_neg (by linarith), if_pos hq]
      · intro q hq1 hq2
        rw [hfv]
        simp only [rangedForValue, jsq]
        rw [if_neg (by linarith), if_neg (by linarith)]

/-- Concrete Score built by the C1 witness: range `[0, 100]`, no extractor. -/
def c1Demo : Scor Unit :=
  { min := jsq 0, max := jsq 100, toValue := none, weight := none,
    forValue := fun v => Except.ok (rangedForValue 0 100 v),
    forItem := fun _ => Except.error (JSError.typeError MISSING_TO_VALUE) }

/-- C1 witness: the spec's own example `min = 0, max = 100, value = 74.9`,
plus the boundary and non-finite cases, on a concretely built Score. -/
theorem C1_forValue_piecewise_witness :
    scor { min := jsq 0, max := jsq 100, toValue := none, weight := none } =
      Except.ok c1Demo ∧
    c1Demo.forValue (some JSNum.nan) = Except.ok 0 ∧
    c1Demo.forValue (jsq 0) = Except.ok 0 ∧
    c1Demo.forValue (jsq 100) = Except.ok 1 ∧
    c1Demo.forValue (jsq (749/10)) = Except.ok (749/1000) := by
  have hs : scor { min := jsq 0, max := jsq 100, toValue := none, weight := none } =
      Except.ok c1Demo := by
    unfold scor c1Demo
    norm_num [isNumeric, isInvalidWeight, jsq]
  obtain ⟨-, hr⟩ := C1_forValue_piecewise _ c1Demo hs
  obtain ⟨hnf, hlo, hhi, hmid⟩ := hr 0 100 rfl rfl (by norm_num)
  refine ⟨hs, hnf _ rfl, hlo 0 le_rfl, hhi 100 le_rfl, ?_⟩
  have := hmid (749/10) (by norm_num) (by norm_num)
  rw [this]
  norm_num

/-- C5: the constructor throws `RangeError` for a defined non-finite `min`
(then `max`, then an invalid `weight`, in that order), throws `RangeError`
when both bounds are provided with `min > max`, returns a Score that
stores whatever was provided but whose `forValue`/`forItem` always throw
`RangeError` when a bound is missing, and on success `forItem` throws the
distinct `TypeError MISSING_TO_VALUE` when `toValue` is missing (valid
range case), while with `toValue` configured `forItem item` equals
`forValue (toValue item)`. -/
theorem C5_scor_errors {T : Type} (o : OptionsArg T) :
    (o.min.isSome = true → isNumeric o.min = false →
       scor o = Except.error
         (JSError.rangeError (INVALID_RANGE ++ ": Expected min to be numeric"))) ∧
    ((o.min.isSome && !(isNumeric o.min)) = false →
       o.max.isSome = true → isNumeric o.max = false →
       scor o = Except.error
         (JSError.rangeError (INVALID_RANGE ++ ": Expected max to be numeric"))) ∧
    ((o.min.isSome && !(isNumeric o.min)) = false →
       (o.max.isSome && !(isNumeric o.max)) = false →
       isInvalidWeight o.weight = true →
       scor o = Except.error
         (JSError.rangeError (INVALID_RANGE ++ ": Expected weight to be numeric and >= 0"))) ∧
    (∀ mn mx : ℚ, o.min = jsq mn → o.max = jsq mx →
       isInvalidWeight o.weight = false → mx < mn →
       scor o = Except.error
         (JSError.rangeError (INVALID_RANGE ++ ": Expected min < max"))) ∧
    ((o.min = none ∨ o.max = none) →
       (o.min.isSome && !(isNumeric o.min)) = false →
       (o.max.isSome && !(isNumeric o.max)) = false →
       isInvalidWeight o.weight = false →
       ∃ s : Scor T, scor o = Except.ok s ∧
         s.min = o.min ∧ s.max = o.max ∧ s.toValue = o.toValue ∧ s.weight = o.weight ∧
         (∀ v, s.forValue v = Except.error (JSError.rangeError INVALID_RANGE)) ∧
         (∀ it, s.forItem it = Except.error (JSError.rangeError INVALID_RANGE))) ∧
    (∀ (s : Scor T) (mn mx : ℚ), scor o = Except.ok s →
       o.min = jsq mn → o.max = jsq mx → mn < mx → o.toValue = none →
       ∀ it, s.forItem it = Except.error (JSError.typeError MISSING_TO_VALUE)) ∧
    (∀ (s : Scor T) (tv : ToValue T), scor o = Except.ok s → o.toValue = some tv →
       ∀ it, s.forItem it = s.forValue (tv it)) := by
  refine ⟨?_, ?_, ?_, ?_, ?_, ?_, ?_⟩
  · intro h1 h2
    unfold scor
    rw [if_pos (by rw [h1, h2]; rfl)]
  · intro h1 h2 h3
    unfold scor
    rw [if_neg (by simp [h1]), if_pos (by rw [h2, h3]; rfl)]
  · intro h1 h2 h3
    unfold scor
    rw [if_neg (by simp [h1]), if_neg (by simp [h2]), if_pos h3]
  · intro mn mx hmn hmx hw hgt
    unfold scor
    rw [if_neg (by simp [hmn, jsq, isNumeric]), if_neg (by simp [hmx, jsq, isNumeric]),
        if_neg (by simp [hw]), hmn, hmx]
    simp only [jsq]
    rw [if_pos hgt]
  · intro hnone h1 h2 h3
    refine ⟨{ min := o.min, max := o.max, toValue := o.toValue, weight := o.weight,
              forValue := fun _ => Except.error (JSError.rangeError INVALID_RANGE),
              forItem := fun _ => Except.error (JSError.rangeError INVALID_RANGE) },
            ?_, rfl, rfl, rfl, rfl, fun _ => rfl, fun _ => rfl⟩
    unfold scor
    rw [if_neg (by simp [h1]), if_neg (by simp [h2]), if_neg (by simp [h3])]
    rcases hnone with hn | hn
    · rw [hn]
    · rw [hn]
      cases homin : o.min with
      | none => rfl
      | some b => cases b <;> rfl
  · intro s mn mx h hmn hmx hlt htv it
    obtain ⟨-, -, -, -, hcases⟩ := scor_ok_inv h
    rcases hcases with ⟨hnone, -, -⟩ | ⟨⟨a, hmn', hmx'⟩, -, -⟩ |
      ⟨mn', mx', hmn', hmx', -, -, hfi⟩
    · rcases hnone with hn | hn
      · rw [hn] at hmn
        exact absurd hmn (by simp [jsq])
      · rw [hn] at hmx
        exact absurd hmx (by simp [jsq])
    · rw [hmn] at hmn'
      rw [hmx] at hmx'
      simp only [jsq, Option.some.injEq, JSNum.num.injEq] at hmn' hmx'
      exact (False.elim (by linarith))
    · rcases hfi with ⟨tv, htv', -⟩ | ⟨-, hfi⟩
      · rw [htv] at htv'
        exact absurd htv' (by simp)
      · rw [hfi]
  · intro s tv h htv it
    obtain ⟨-, -, -, -, hcases⟩ := scor_ok_inv h
    rcases hcases with ⟨-, hfv, hfi⟩ | ⟨-, hfv, hfi⟩ |
      ⟨mn, mx, -, -, -, hfv, hfi⟩
    · rw [hfv, hfi]
    · rw [hfv, hfi]
    · rcases hfi with ⟨tv', htv', hfi⟩ | ⟨htv', -⟩
      · rw [htv] at htv'
        simp only [Option.some.injEq] at htv'
        rw [hfv, hfi, htv']
      · rw [htv] at htv'
        exact absurd htv' (by simp)

/-- C5 witness: concrete checks for each failure mode — `min = NaN`,
`max = Infinity`, negative weight, `min = 1 > max = 0.999`, a Score with a
missing `max` whose scoring throws, a valid range without `toValue`, and
`forItem = forValue ∘ toValue` on a fully configured Score. -/
theorem C5_scor_errors_witness :
    scor ({ min := some JSNum.nan, max := none, toValue := none, weight := none } :
        OptionsArg Unit) =
      Except.error (JSError.rangeError (INVALID_RANGE ++ ": Expected min to be numeric")) ∧
    scor ({ min := jsq 0, max := some JSNum.posInf, toValue := none, weight := none } :
        OptionsArg Unit) =
      Except.error (JSError.rangeError (INVALID_RANGE ++ ": Expected max to be numeric")) ∧
    scor ({ min := jsq 0, max := jsq 1, toValue := none, weight := jsq (-1) } :
        OptionsArg Unit) =
      Except.error (JSError.rangeError (INVALID_RANGE ++ ": Expected weight to be numeric and >= 0")) ∧
    scor ({ min := jsq 1, max := jsq (999/1000), toValue := none, weight := none } :
        OptionsArg Unit) =
      Except.error (JSError.rangeError (INVALID_RANGE ++ ": Expected min < max")) := by
  obtain ⟨p1, -, -, -, -, -, -⟩ :=
    C5_scor_errors ({ min := some JSNum.nan, max := none, toValue := none, weight := none } :
      OptionsArg Unit)
  obtain ⟨-, p2, -, -, -, -, -⟩ :=
    C5_scor_errors ({ min := jsq 0, max := some JSNum.posInf, toValue := none, weight := none } :
      OptionsArg Unit)
  obtain ⟨-, -, p3, -, -, -, -⟩ :=
    C5_scor_errors ({ min := jsq 0, max := jsq 1, toValue := none, weight := jsq (-1) } :
      OptionsArg Unit)
  obtain ⟨-, -, -, p4, -, -, -⟩ :=
    C5_scor_errors ({ min := jsq 1, max := jsq (999/1000), toValue := none, weight := none } :
      OptionsArg Unit)
  exact ⟨p1 rfl rfl, p2 rfl rfl rfl, p3 rfl rfl (by decide),
         p4 1 (999/1000) rfl rfl rfl (by norm_num)⟩

/-- C9: every updater returns a Score with exactly the named field(s)
replaced and every other field carried over unchanged; and rebuilding a
constructed Score with its own (defined) `min` returns the very same
Score — same fields and the same `forValue`/`forItem` closures. -/
theorem C9_setters {T : Type} :
    (∀ (s s' : Scor T) (m : JSNum), setMin s m = Except.ok s' →
       s'.min = some m ∧ s'.max = s.max ∧ s'.toValue = s.toValue ∧ s'.weight = s.weight) ∧
    (∀ (s s' : Scor T) (m : JSNum), setMax s m = Except.ok s' →
       s'.min = s.min ∧ s'.max = some m ∧ s'.toValue = s.toValue ∧ s'.weight = s.weight) ∧
    (∀ (s s' : Scor T) (mn mx : JSNum), setRange s mn mx = Except.ok s' →
       s'.min = some mn ∧ s'.max = some mx ∧ s'.toValue = s.toValue ∧ s'.weight = s.weight) ∧
    (∀ (s s' : Scor T) (tv : ToValue T), setToValue s tv = Except.ok s' →
       s'.min = s.min ∧ s'.max = s.max ∧ s'.toValue = some tv ∧ s'.weight = s.weight) ∧
    (∀ (s s' : Scor T) (w : JSVal), setWeight s w = Except.ok s' →
       s'.min = s.min ∧ s'.max = s.max ∧ s'.toValue = s.toValue ∧ s'.weight = w) ∧
    (∀ (o : OptionsArg T) (s : Scor T) (m : JSNum), scor o = Except.ok s →
       s.min = some m → setMin s m = Except.ok s) := by
  refine ⟨?_, ?_, ?_, ?_, ?_, ?_⟩
  · intro s s' m h
    obtain ⟨h1, h2, h3, h4, -⟩ := scor_ok_inv h
    exact ⟨h1, h2, h3, h4⟩
  · intro s s' m h
    obtain ⟨h1, h2, h3, h4, -⟩ := scor_ok_inv h
    exact ⟨h1, h2, h3, h4⟩
  · intro s s' mn mx h
    obtain ⟨h1, h2, h3, h4, -⟩ := scor_ok_inv h
    exact ⟨h1, h2, h3, h4⟩
  · intro s s' tv h
    obtain ⟨h1, h2, h3, h4, -⟩ := scor_ok_inv h
    exact ⟨h1, h2, h3, h4⟩
  · intro s s' w h
    obtain ⟨h1, h2, h3, h4, -⟩ := scor_ok_inv h
    exact ⟨h1, h2, h3, h4⟩
  · intro o s m h hm
    have hr := scor_rebuild h
    unfold setMin
    rw [← hm]
    exact hr

/-- Concrete Score used by the C9 witness: range `[1, 5]`, no extractor. -/
def c9Demo : Scor Unit :=
  { min := jsq 1, max := jsq 5, toValue := none, weight := none,
    forValue := fun v => Except.ok (rangedForValue 1 5 v),
    forItem := fun _ => Except.error (JSError.typeError MISSING_TO_VALUE) }

/-- C9 witness: `setMin s s.min` is the identity on a concretely built
Score. -/
theorem C9_setters_witness : setMin c9Demo (JSNum.num 1) = Except.ok c9Demo := by
  have hs : scor ({ min := jsq 1, max := jsq 5, toValue := none, weight := none } :
      OptionsArg Unit) = Except.ok c9Demo := by
    unfold scor c9Demo
    norm_num [isNumeric, isInvalidWeight, jsq]
  exact (C9_setters (T := Unit)).2.2.2.2.2 _ c9Demo (JSNum.num 1) hs rfl

/-- Inversion of a successful range inference: both components belong to
the filtered numeric values and bound them below resp. above. -/
lemma getItemRange_ok_inv {T : Type} {toValue : ToValue T} {items : List T}
    {mn mx : ℚ} (h : getItemRange toValue items = Except.ok (mn, mx)) :
    mn ∈ numericFilter (items.map toValue) ∧
    mx ∈ numericFilter (items.map toValue) ∧
    ∀ x ∈ numericFilter (items.map toValue), mn ≤ x ∧ x ≤ mx := by
  unfold getItemRange at h
  cases h1 : numericFilter (items.map toValue) with
  | nil => rw [h1] at h; exact absurd h (by simp)
  | cons v vs =>
      rw [h1] at h
      simp only [Except.ok.injEq, Prod.mk.injEq] at h
      obtain ⟨hmn, hmx⟩ := h
      obtain ⟨hm1, hb1⟩ := foldl_min_spec vs v
      obtain ⟨hm2, hb2⟩ := foldl_max_spec vs v
      exact ⟨hmn ▸ hm1, hmx ▸ hm2, fun x hx => ⟨hmn ▸ hb1 x hx, hmx ▸ hb2 x hx⟩⟩

/-- C8: `getItemRange` maps every item through `toValue`, discards the
non-finite extracted values, fails with the invalid-range error when
nothing remains (the empty input included), otherwise returns the pair of
the minimum and maximum of the remaining values; and the result does not
depend on the order of the items. -/
theorem C8_getItemRange {T : Type} (toValue : ToValue T) (items : List T) :
    (numericFilter (items.map toValue) = [] →
       getItemRange toValue items =
         Except.error
           (JSError.rangeError (INVALID_RANGE ++ ": Expected at least one numeric value."))) ∧
    (∀ mn mx : ℚ, getItemRange toValue items = Except.ok (mn, mx) →
       mn ∈ numericFilter (items.map toValue) ∧
       mx ∈ numericFilter (items.map toValue) ∧
       ∀ x ∈ numericFilter (items.map toValue), mn ≤ x ∧ x ≤ mx) ∧
    (∀ items' : List T, items.Perm items' →
       getItemRange toValue items = getItemRange toValue items') := by
  refine ⟨?_, fun mn mx h => getItemRange_ok_inv h, ?_⟩
  · intro h
    unfold getItemRange
    rw [h]
  · intro items' hperm
    have hp : (numericFilter (items.map toValue)).Perm
        (numericFilter (items'.map toValue)) := by
      unfold numericFilter
      exact (hperm.map toValue).filterMap _
    unfold getItemRange
    cases h1 : numericFilter (items.map toValue) with
    | nil =>
        cases h2 : numericFilter (items'.map toValue) with
        | nil => rfl
        | cons w ws => rw [h1, h2] at hp; exact absurd hp (by simp [List.Perm.nil_eq])
    | cons v vs =>
        cases h2 : numericFilter (items'.map toValue) with
        | nil => rw [h1, h2] at hp; exact absurd hp (by simp [List.Perm.nil_eq])
        | cons w ws =>
            rw [h1, h2] at hp
            obtain ⟨hm1, hb1⟩ := foldl_min_spec vs v
            obtain ⟨hM1, hB1⟩ := foldl_max_spec vs v
            obtain ⟨hm2, hb2⟩ := foldl_min_spec ws w
            obtain ⟨hM2, hB2⟩ := foldl_max_spec ws w
            have hmin : vs.foldl min v = ws.foldl min w :=
              le_antisymm (hb1 _ (hp.mem_iff.mpr hm2)) (hb2 _ (hp.mem_iff.mp hm1))
            have hmax : vs.foldl max v = ws.foldl max w :=
              le_antisymm (hB2 _ (hp.mem_iff.mp hM1)) (hB1 _ (hp.mem_iff.mpr hM2))
            show Except.ok (vs.foldl min v, vs.foldl max v) =
              Except.ok (ws.foldl min w, ws.foldl max w)
            rw [hmin, hmax]

/-- C8 witness: the spec's own filtering example (NaN and null discarded,
range `[50, 100]`), the empty failure, and invariance under a concrete
permutation. -/
theorem C8_getItemRange_witness :
    getItemRange (fun v : JSVal => v) [] =
      Except.error
        (JSError.rangeError (INVALID_RANGE ++ ": Expected at least one numeric value.")) ∧
    getItemRange (fun v : JSVal => v) [some JSNum.nan, none, jsq 50, jsq 100, jsq 75] =
      Except.ok (50, 100) ∧
    (50 : ℚ) ∈ numericFilter
      ([some JSNum.nan, none, jsq 50, jsq 100, jsq 75].map (fun v : JSVal => v)) ∧
    getItemRange (fun v : JSVal => v) [some JSNum.nan, none, jsq 50, jsq 100, jsq 75] =
      getItemRange (fun v : JSVal => v) [jsq 75, jsq 100, jsq 50, none, some JSNum.nan] := by
  obtain ⟨e1, -, -⟩ := C8_getItemRange (fun v : JSVal => v) []
  obtain ⟨-, b2, p2⟩ :=
    C8_getItemRange (fun v : JSVal => v) [some JSNum.nan, none, jsq 50, jsq 100, jsq 75]
  have hok : getItemRange (fun v : JSVal => v)
      [some JSNum.nan, none, jsq 50, jsq 100, jsq 75] = Except.ok (50, 100) := by
    rfl
  refine ⟨e1 rfl, hok, (b2 50 100 hok).1, p2 _ (by decide)⟩

/-- C10: whenever `getItemRange` succeeds, the inferred range satisfies
`min ≤ max` (both finite rationals by construction), so `scorForItems`
can never hit the constructor's error branches, and the Score it returns
has total scoring closures that never throw. -/
theorem C10_scorForItems_safe {T : Type} (toValue : ToValue T) (items : List T)
    (mn mx : ℚ) (h : getItemRange toValue items = Except.ok (mn, mx)) :
    mn ≤ mx ∧
    ∃ s : Scor T, scorForItems toValue items = Except.ok s ∧
      (∀ v, ∃ q, s.forValue v = Except.ok q) ∧
      (∀ it, ∃ q, s.forItem it = Except.ok q) := by
  obtain ⟨hmem, -, hbd⟩ := getItemRange_ok_inv h
  have hle : mn ≤ mx := (hbd mn hmem).2
  obtain ⟨s, hs, hv, hi⟩ := scor_valid_range mn mx hle toValue
  refine ⟨hle, s, ?_, hv, hi⟩
  unfold scorForItems
  rw [h]
  exact hs

/-- C10 witness: instantiated on the two-item list whose range is `[3, 7]`. -/
theorem C10_scorForItems_safe_witness :
    (3 : ℚ) ≤ 7 ∧
    ∃ s : Scor JSVal, scorForItems (fun v : JSVal => v) [jsq 7, jsq 3] = Except.ok s ∧
      (∀ v, ∃ q, s.forValue v = Except.ok q) ∧
      (∀ it, ∃ q, s.forItem it = Except.ok q) := by
  refine C10_scorForItems_safe (fun v : JSVal => v) [jsq 7, jsq 3] 3 7 ?_
  rfl

/-- Reduction of a successful `Except` bind, for rewriting. -/
lemma okBind {ε α β : Type} (a : α) (f : α → Except ε β) :
    (Except.ok a >>= f : Except ε β) = f a := rfl

/-- Reduction of a failed `Except` bind, for rewriting. -/
lemma errBind {ε α β : Type} (e : ε) (f : α → Except ε β) :
    ((Except.error e : Except ε α) >>= f) = Except.error e := rfl

/-- Spec-side quantity: the sum of the defined weights (an undefined
weight contributes 0). -/
def definedSum (ws : List JSVal) : ℚ := (ws.map toQ).sum

/-- Spec-side quantity: the number of undefined weights. -/
def undefinedCount (ws : List JSVal) : ℕ := ws.countP fun w => !(isNumeric w)

/-- The weight reduce succeeds exactly on valid entries, computing the
defined sum and the undefined count. -/
lemma sumCount_ok {ws : List JSVal} (hval : ∀ w ∈ ws, isInvalidWeight w = false) :
    ∀ (a : ℚ) (c : ℕ),
      ws.foldlM sumAndCountWeights (a, c) =
        Except.ok (a + definedSum ws, c + undefinedCount ws) := by
  induction ws with
  | nil =>
      intro a c
      simp only [List.foldlM_nil, definedSum, undefinedCount, List.map_nil,
        List.sum_nil, List.countP_nil, add_zero]
      rfl
  | cons w ws ih =>
      intro a c
      have hw : isInvalidWeight w = false := hval w (List.mem_cons_self _ _)
      have hrest : ∀ w ∈ ws, isInvalidWeight w = false :=
        fun w hmem => hval w (List.mem_cons_of_mem _ hmem)
      match w, hw with
      | none, _ =>
          show List.foldlM sumAndCountWeights (a, c + 1) ws = _
          rw [ih hrest]
          simp only [definedSum, undefinedCount, List.map_cons, List.sum_cons,
            List.countP_cons, toQ, isNumeric, Except.ok.injEq, Prod.mk.injEq]
          constructor
          · ring_nf
          · simp
            omega
      | some (JSNum.num q), hq =>
          have hq' : ¬ q < 0 := by simpa [isInvalidWeight] using hq
          rw [List.foldlM_cons]
          have hstep : sumAndCountWeights (a, c) (some (JSNum.num q)) =
              Except.ok (a + q, c) := by
            unfold sumAndCountWeights
            rw [hq]
            rfl
          rw [hstep]
          show List.foldlM sumAndCountWeights (a + q, c) ws = _
          rw [ih hrest]
          simp only [definedSum, undefinedCount, List.map_cons, List.sum_cons,
            List.countP_cons, toQ, isNumeric, Except.ok.injEq, Prod.mk.injEq]
          constructor
          · ring_nf
          · simp
      | some JSNum.nan, hx => simp [isInvalidWeight] at hx
      | some JSNum.posInf, hx => simp [isInvalidWeight] at hx
      | some JSNum.negInf, hx => simp [isInvalidWeight] at hx

/-- The weight reduce throws the range error as soon as any entry is
invalid (not finite, or negative). -/
lemma sumCount_error {ws : List JSVal} (hbad : ∃ w ∈ ws, isInvalidWeight w = true) :
    ∀ (a : ℚ) (c : ℕ),
      ws.foldlM sumAndCountWeights (a, c) =
        Except.error
          (JSError.rangeError
            (INVALID_RANGE ++ ": Expected all (defined) weights to be numeric and >= 0")) := by
  induction ws with
  | nil => simp at hbad
  | cons w ws ih =>
      intro a c
      rw [List.foldlM_cons]
      by_cases hw : isInvalidWeight w = true
      · unfold sumAndCountWeights
        rw [hw]
        rfl
      · have hw' : isInvalidWeight w = false := by simpa using hw
        have hbad' : ∃ w ∈ ws, isInvalidWeight w = true := by
          rcases hbad with ⟨b, hb, hbi⟩
          rcases List.mem_cons.mp hb with rfl | hb
          · exact absurd hbi (by simp [hw'])
          · exact ⟨b, hb, hbi⟩
        unfold sumAndCountWeights
        rw [hw']
        match w, hw' with
        | none, _ =>
            simp only [Bool.false_eq_true, if_false]
            exact ih hbad' a (c + 1)
        | some (JSNum.num q), _ =>
            simp only [Bool.false_eq_true, if_false]
            exact ih hbad' (a + q) c
        | some JSNum.nan, hx => simp [isInvalidWeight] at hx
        | some JSNum.posInf, hx => simp [isInvalidWeight] at hx
        | some JSNum.negInf, hx => simp [isInvalidWeight] at hx

/-- Mapping finite rationals in makes every entry valid iff all are
non-negative; the defined sum is the plain sum and nothing is undefined. -/
lemma jsq_weights_facts (ws : List ℚ) (hpos : ∀ w ∈ ws, 0 ≤ w) :
    (∀ w ∈ ws.map jsq, isInvalidWeight w = false) ∧
    definedSum (ws.map jsq) = ws.sum ∧ undefinedCount (ws.map jsq) = 0 := by
  refine ⟨?_, ?_, ?_⟩
  · intro w hw
    rcases List.mem_map.mp hw with ⟨q, hq, rfl⟩
    simp [isInvalidWeight, jsq, not_lt.mpr (hpos q hq)]
  · unfold definedSum
    rw [List.map_map]
    have : toQ ∘ jsq = id := by
      funext q
      rfl
    rw [this, List.map_id]
  · unfold undefinedCount
    rw [List.countP_eq_zero.mpr]
    intro w hw
    rcases List.mem_map.mp hw with ⟨q, hq, rfl⟩
    simp [isNumeric, jsq]

/-- The source reducer `toNumericSum` computes the defined sum. -/
lemma foldl_toNumericSum (ws : List JSVal) :
    ∀ a : ℚ, ws.foldl toNumericSum a = a + definedSum ws := by
  induction ws with
  | nil => intro a; simp [definedSum]
  | cons w ws ih =>
      intro a
      rw [List.foldl_cons]
      cases w with
      | none =>
          rw [ih]
          simp [toNumericSum, definedSum, toQ]
      | some b =>
          cases b <;> rw [ih] <;> simp [toNumericSum, definedSum, toQ] <;> ring


/-- The source's `length - (filter isNumeric).length` equals the count of
undefined entries. -/
lemma undefined_count_eq (ws : List JSVal) :
    ws.length - (ws.filter isNumeric).length = undefinedCount ws := by
  induction ws with
  | nil => rfl
  | cons w ws ih =>
      have hle : (ws.filter isNumeric).length ≤ ws.length := List.length_filter_le _ _
      unfold undefinedCount at *
      cases hn : isNumeric w <;> simp [List.filter_cons, List.countP_cons, hn] <;> omega

/-- A `mapM` whose steps all succeed pointwise is the corresponding `map`. -/
lemma mapM_ok_of_forall {α β : Type} {f : α → Except JSError β} {g : α → β}
    {l : List α} (h : ∀ a ∈ l, f a = Except.ok (g a)) :
    l.mapM f = Except.ok (l.map g) := by
  induction l with
  | nil => rfl
  | cons a l ih =>
      rw [List.mapM_cons, h a (List.mem_cons_self _ _), okBind,
        ih (fun a ha => h a (List.mem_cons_of_mem _ ha)), okBind]
      rfl

/-- `assertWeights` on a non-empty list of valid weights: an error when
everything is defined but sums to 0, otherwise `true`/`false` according
to whether anything is undefined. -/
lemma assertWeights_valid {ws : List JSVal}
    (hval : ∀ w ∈ ws, isInvalidWeight w = false) (hne : ws ≠ []) :
    assertWeights ws =
      (if undefinedCount ws = 0 then
         (if definedSum ws = 0 then
            Except.error (JSError.rangeError
              (INVALID_RANGE ++ ": expected sum to be > 0 when all weights are defined."))
          else Except.ok true)
       else Except.ok false) := by
  unfold assertWeights
  rw [if_neg (fun h => hne (List.length_eq_zero.mp h)), sumCount_ok hval 0 0, okBind]
  simp only [zero_add]

/-- C3: over valid weights (finite, non-negative), a fully defined
collection with positive sum is returned unchanged; otherwise every
undefined entry receives `(1 - sum(defined)) / k` when that is positive
and 0 otherwise while defined entries (explicit 0 included) are left
untouched — for the list API, the dict API, and the part_001 variant
over the `weight` field of Score objects, which builds a new Score only
for the entries that change. -/
theorem C3_distributeWeights {T : Type} :
    (∀ ws : List ℚ, ws ≠ [] → (∀ w ∈ ws, 0 ≤ w) → 0 < ws.sum →
       distributeWeights (ws.map jsq) = Except.ok (ws.map jsq)) ∧
    (∀ ws : List JSVal, (∀ w ∈ ws, isInvalidWeight w = false) →
       0 < undefinedCount ws →
       distributeWeights ws = Except.ok (ws.map fun w =>
         if isNumeric w then w
         else jsq (if 0 < 1 - definedSum ws
                   then (1 - definedSum ws) / (undefinedCount ws : ℚ) else 0))) ∧
    (∀ kvs : List (String × ℚ), kvs ≠ [] → (∀ kv ∈ kvs, 0 ≤ kv.2) →
       0 < (kvs.map Prod.snd).sum →
       distributeWeightsDict (kvs.map fun kv => (kv.1, jsq kv.2)) =
         Except.ok (kvs.map fun kv => (kv.1, jsq kv.2))) ∧
    (∀ kvs : List (String × JSVal),
       (∀ kv ∈ kvs, isInvalidWeight kv.2 = false) →
       0 < undefinedCount (kvs.map Prod.snd) →
       distributeWeightsDict kvs = Except.ok (kvs.map fun kv =>
         (kv.1, if isNumeric kv.2 then kv.2
                else jsq (if 0 < 1 - definedSum (kvs.map Prod.snd)
                          then (1 - definedSum (kvs.map Prod.snd)) /
                            (undefinedCount (kvs.map Prod.snd) : ℚ) else 0)))) ∧
    (∀ scores : List (Scor T), (∀ s ∈ scores, isNumeric s.weight = true) →
       0 < definedSum (scores.map Scor.weight) →
       distributeWeightsScores scores = Except.ok scores) ∧
    (∀ scores : List (Scor T),
       (∀ s ∈ scores, ∃ o : OptionsArg T, scor o = Except.ok s) →
       0 < undefinedCount (scores.map Scor.weight) →
       distributeWeightsScores scores = Except.ok (scores.map fun s =>
         if isNumeric s.weight then s
         else { min := s.min, max := s.max, toValue := s.toValue,
                weight := jsq (if 0 < 1 - definedSum (scores.map Scor.weight)
                               then (1 - definedSum (scores.map Scor.weight)) /
                                 (undefinedCount (scores.map Scor.weight) : ℚ) else 0),
                forValue := s.forValue, forItem := s.forItem })) := by
  refine ⟨?_, ?_, ?_, ?_, ?_, ?_⟩
  · intro ws hne hpos hsum
    obtain ⟨hval, hds, huc⟩ := jsq_weights_facts ws hpos
    have hne' : ws.map jsq ≠ [] := by simpa using hne
    unfold distributeWeights
    rw [assertWeights_valid hval hne', if_pos huc, if_neg (by rw [hds]; exact ne_of_gt hsum),
      okBind]
    rfl
  · intro ws hval huc
    have hne : ws ≠ [] := by
      intro h
      rw [h] at huc
      simp [undefinedCount] at huc
    unfold distributeWeights
    rw [assertWeights_valid hval hne, if_neg (by omega), okBind,
      sumCount_ok hval 0 0]
    simp only [Bool.false_eq_true, if_false, okBind, zero_add]
    rfl
  · intro kvs hne hpos hsum
    have hmm : (kvs.map fun kv => (kv.1, jsq kv.2)).map Prod.snd =
        (kvs.map Prod.snd).map jsq := by
      rw [List.map_map, List.map_map]
      rfl
    obtain ⟨hval, hds, huc⟩ := jsq_weights_facts (kvs.map Prod.snd)
      (fun w hw => by rcases List.mem_map.mp hw with ⟨kv, hkv, rfl⟩; exact hpos kv hkv)
    have hne' : (kvs.map fun kv => (kv.1, jsq kv.2)).map Prod.snd ≠ [] := by
      rw [hmm]
      simpa using hne
    unfold distributeWeightsDict
    rw [hmm, assertWeights_valid hval (by simpa using hne), if_pos huc,
      if_neg (by rw [hds]; exact ne_of_gt hsum), okBind]
    rfl
  · intro kvs hval huc
    have hval' : ∀ w ∈ kvs.map Prod.snd, isInvalidWeight w = false := by
      intro w hw
      rcases List.mem_map.mp hw with ⟨kv, hkv, rfl⟩
      exact hval kv hkv
    have hne : kvs.map Prod.snd ≠ [] := by
      intro h
      rw [h] at huc
      simp [undefinedCount] at huc
    unfold distributeWeightsDict
    rw [assertWeights_valid hval' hne, if_neg (by omega), okBind,
      sumCount_ok hval' 0 0]
    simp only [Bool.false_eq_true, if_false, okBind, zero_add]
    rfl
  · intro scores hdef hpos
    have huc0 : undefinedCount (scores.map Scor.weight) = 0 := by
      unfold undefinedCount
      rw [List.countP_eq_zero]
      intro w hw
      rcases List.mem_map.mp hw with ⟨s, hs, rfl⟩
      simp [hdef s hs]
    simp only [distributeWeightsScores]
    rw [undefined_count_eq, if_pos huc0]
  · intro scores hbuilt huc
    have hper : 0 ≤ (if 0 < 1 - definedSum (scores.map Scor.weight)
        then (1 - definedSum (scores.map Scor.weight)) /
          (undefinedCount (scores.map Scor.weight) : ℚ) else 0) := by
      split_ifs with hp
      · positivity
      · exact le_refl 0
    simp only [distributeWeightsScores]
    rw [undefined_count_eq, if_neg (by omega), foldl_toNumericSum]
    simp only [zero_add]
    refine mapM_ok_of_forall ?_
    intro s hs
    by_cases hn : isNumeric s.weight = true
    · rw [if_pos hn, if_pos hn]
    · have hn' : isNumeric s.weight = false := by simpa using hn
      rw [hn']
      simp only [Bool.false_eq_true, if_false]
      obtain ⟨o, ho⟩ := hbuilt s hs
      refine setWeight_ok ho ?_
      simp only [isInvalidWeight, jsq, decide_eq_false_iff_not]
      exact not_lt.mpr hper

/-- Concrete Score with weight 0.5, used by the C3 witness. -/
def c3DemoA : Scor Unit :=
  { min := jsq 0, max := jsq 1, toValue := none, weight := jsq (1/2),
    forValue := fun v => Except.ok (rangedForValue 0 1 v),
    forItem := fun _ => Except.error (JSError.typeError MISSING_TO_VALUE) }

/-- Concrete Score with no weight, used by the C3 witness. -/
def c3DemoB : Scor Unit :=
  { min := jsq 0, max := jsq 1, toValue := none, weight := none,
    forValue := fun v => Except.ok (rangedForValue 0 1 v),
    forItem := fun _ => Except.error (JSError.typeError MISSING_TO_VALUE) }

/-- C3 witness: the spec's own examples — `[0.5, _, _] ↦ [0.5, 0.25, 0.25]`,
an over-subscribed list leaving the undefined entry at 0, a fully defined
list returned unchanged, the dict example `{a: 0.7, ...}`, and the Score
variant distributing 0.5 onto the unweighted Score. -/
theorem C3_distributeWeights_witness :
    distributeWeights [jsq (1/2), none, none] =
      Except.ok [jsq (1/2), jsq (1/4), jsq (1/4)] ∧
    distributeWeights [jsq 1, jsq (1/2), none] =
      Except.ok [jsq 1, jsq (1/2), jsq 0] ∧
    distributeWeights [jsq 1, jsq (1/2)] = Except.ok [jsq 1, jsq (1/2)] ∧
    distributeWeightsDict [("a", jsq (7/10)), ("b", none), ("c", none)] =
      Except.ok [("a", jsq (7/10)), ("b", jsq (3/20)), ("c", jsq (3/20))] ∧
    distributeWeightsScores [c3DemoA, c3DemoB] =
      Except.ok [c3DemoA,
        { min := c3DemoB.min, max := c3DemoB.max, toValue := c3DemoB.toValue,
          weight := jsq (1/2), forValue := c3DemoB.forValue,
          forItem := c3DemoB.forItem }] := by
  obtain ⟨p1, p2, p3, p4, p5, p6⟩ := C3_distributeWeights (T := Unit)
  have hA : scor ({ min := jsq 0, max := jsq 1, toValue := none, weight := jsq (1/2) } :
      OptionsArg Unit) = Except.ok c3DemoA := by
    unfold scor c3DemoA
    norm_num [isNumeric, isInvalidWeight, jsq]
  have hB : scor ({ min := jsq 0, max := jsq 1, toValue := none, weight := none } :
      OptionsArg Unit) = Except.ok c3DemoB := by
    unfold scor c3DemoB
    norm_num [isNumeric, isInvalidWeight, jsq]
  refine ⟨?_, ?_, ?_, ?_, ?_⟩
  · rw [p2 [jsq (1/2), none, none] (by norm_num [isInvalidWeight, jsq])
      (by norm_num [undefinedCount, isNumeric, jsq, List.countP_cons])]
    norm_num [definedSum, undefinedCount, toQ, isNumeric, jsq, List.countP_cons]
  · rw [p2 [jsq 1, jsq (1/2), none] (by norm_num [isInvalidWeight, jsq])
      (by norm_num [undefinedCount, isNumeric, jsq, List.countP_cons])]
    norm_num [definedSum, undefinedCount, toQ, isNumeric, jsq, List.countP_cons]
  · have := p1 [1, 1/2] (List.cons_ne_nil _ _) (by norm_num
      [List.forall_mem_cons]) (by norm_num)
    simpa using this
  · rw [p4 [("a", jsq (7/10)), ("b", none), ("c", none)]
      (by norm_num [isInvalidWeight, jsq])
      (by norm_num [undefinedCount, isNumeric, jsq, List.countP_cons])]
    norm_num [definedSum, undefinedCount, toQ, isNumeric, jsq, List.countP_cons]
  · have hbuilt : ∀ s ∈ [c3DemoA, c3DemoB], ∃ o : OptionsArg Unit, scor o = Except.ok s := by
      intro s hs
      rcases List.mem_cons.mp hs with rfl | hs
      · exact ⟨_, hA⟩
      · rcases List.mem_cons.mp hs with rfl | hs
        · exact ⟨_, hB⟩
        · simp at hs
    have huc : 0 < undefinedCount ([c3DemoA, c3DemoB].map Scor.weight) := by
      show 0 < undefinedCount [jsq (1/2), none]
      norm_num [undefinedCount, isNumeric, jsq, List.countP_cons]
    rw [p6 [c3DemoA, c3DemoB] hbuilt huc]
    show _ = Except.ok [c3DemoA, _]
    norm_num [c3DemoA, c3DemoB, definedSum, undefinedCount, toQ, isNumeric, jsq,
      List.countP_cons]

/-- Concrete Score with explicit weight 0, used by C7. -/
def c7DemoZero : Scor Unit :=
  { min := jsq 0, max := jsq 1, toValue := none, weight := jsq 0,
    forValue := fun v => Except.ok (rangedForValue 0 1 v),
    forItem := fun _ => Except.error (JSError.typeError MISSING_TO_VALUE) }

/-- C7 counterexample: the part_001 variant that distributes over Score
objects does NOT share the bare-weight API's failure conditions — on the
empty collection it returns the empty list instead of throwing the
claimed `TypeError`, and on a fully defined all-zero collection it
returns the input unchanged instead of throwing the claimed
`RangeError`. -/
theorem C7_scoreVariant_counterexample :
    distributeWeightsScores ([] : List (Scor Unit)) = Except.ok [] ∧
    distributeWeightsScores [c7DemoZero] = Except.ok [c7DemoZero] := by
  constructor <;> rfl

/-- C7 (amended): the failure conditions hold for the bare-weight API in
both shapes — `RangeError` for a defined weight that is not finite or is
negative, `TypeError` for an empty input, `RangeError` for a fully
defined zero-sum input — but NOT for the part_001 Score-object variant,
which performs no validation: whenever every Score's weight is defined
(the empty collection included, whatever the sum) it returns its input
unchanged. -/
theorem C7_distributeWeights_errors {T : Type} :
    (∀ ws : List JSVal, (∃ w ∈ ws, isInvalidWeight w = true) →
       distributeWeights ws = Except.error (JSError.rangeError
         (INVALID_RANGE ++ ": Expected all (defined) weights to be numeric and >= 0"))) ∧
    (distributeWeights [] =
       Except.error (JSError.typeError "Expected at least one weight.")) ∧
    (∀ ws : List ℚ, ws ≠ [] → (∀ w ∈ ws, 0 ≤ w) → ws.sum = 0 →
       distributeWeights (ws.map jsq) = Except.error (JSError.rangeError
         (INVALID_RANGE ++ ": expected sum to be > 0 when all weights are defined."))) ∧
    (∀ kvs : List (String × JSVal), (∃ kv ∈ kvs, isInvalidWeight kv.2 = true) →
       distributeWeightsDict kvs = Except.error (JSError.rangeError
         (INVALID_RANGE ++ ": Expected all (defined) weights to be numeric and >= 0"))) ∧
    (distributeWeightsDict [] =
       Except.error (JSError.typeError "Expected at least one weight.")) ∧
    (∀ kvs : List (String × ℚ), kvs ≠ [] → (∀ kv ∈ kvs, 0 ≤ kv.2) →
       (kvs.map Prod.snd).sum = 0 →
       distributeWeightsDict (kvs.map fun kv => (kv.1, jsq kv.2)) =
         Except.error (JSError.rangeError
           (INVALID_RANGE ++ ": expected sum to be > 0 when all weights are defined."))) ∧
    (∀ scores : List (Scor T), (∀ s ∈ scores, isNumeric s.weight = true) →
       distributeWeightsScores scores = Except.ok scores) := by
  refine ⟨?_, ?_, ?_, ?_, ?_, ?_, ?_⟩
  · intro ws hbad
    have hne : ws ≠ [] := by
      rcases hbad with ⟨w, hw, -⟩
      exact List.ne_nil_of_mem hw
    unfold distributeWeights assertWeights
    rw [if_neg (fun h => hne (List.length_eq_zero.mp h)), sumCount_error hbad 0 0]
    rfl
  · rfl
  · intro ws hne hpos hsum
    obtain ⟨hval, hds, huc⟩ := jsq_weights_facts ws hpos
    have hne' : ws.map jsq ≠ [] := by simpa using hne
    unfold distributeWeights
    rw [assertWeights_valid hval hne', if_pos huc, if_pos (by rw [hds]; exact hsum)]
    rfl
  · intro kvs hbad
    have hbad' : ∃ w ∈ kvs.map Prod.snd, isInvalidWeight w = true := by
      rcases hbad with ⟨kv, hkv, hi⟩
      exact ⟨kv.2, List.mem_map.mpr ⟨kv, hkv, rfl⟩, hi⟩
    have hne : kvs.map Prod.snd ≠ [] := by
      rcases hbad' with ⟨w, hw, -⟩
      exact List.ne_nil_of_mem hw
    unfold distributeWeightsDict assertWeights
    rw [if_neg (fun h => hne (List.length_eq_zero.mp h)), sumCount_error hbad' 0 0]
    rfl
  · rfl
  · intro kvs hne hpos hsum
    have hmm : (kvs.map fun kv => (kv.1, jsq kv.2)).map Prod.snd =
        (kvs.map Prod.snd).map jsq := by
      rw [List.map_map, List.map_map]
      rfl
    obtain ⟨hval, hds, huc⟩ := jsq_weights_facts (kvs.map Prod.snd)
      (fun w hw => by rcases List.mem_map.mp hw with ⟨kv, hkv, rfl⟩; exact hpos kv hkv)
    unfold distributeWeightsDict
    rw [hmm, assertWeights_valid hval (by simpa using hne), if_pos huc,
      if_pos (by rw [hds]; exact hsum)]
    rfl
  · intro scores hdef
    have huc0 : undefinedCount (scores.map Scor.weight) = 0 := by
      unfold undefinedCount
      rw [List.countP_eq_zero]
      intro w hw
      rcases List.mem_map.mp hw with ⟨s, hs, rfl⟩
      simp [hdef s hs]
    simp only [distributeWeightsScores]
    rw [undefined_count_eq, if_pos huc0]

/-- C7 witness: a negative weight, an all-zero fully defined list, and the
Score variant leaving a fully weighted collection untouched. -/
theorem C7_distributeWeights_errors_witness :
    distributeWeights [jsq (-1)] = Except.error (JSError.rangeError
      (INVALID_RANGE ++ ": Expected all (defined) weights to be numeric and >= 0")) ∧
    distributeWeights [jsq 0, jsq 0] = Except.error (JSError.rangeError
      (INVALID_RANGE ++ ": expected sum to be > 0 when all weights are defined.")) ∧
    distributeWeightsScores [c7DemoZero] = Except.ok [c7DemoZero] := by
  obtain ⟨p1, -, p3, -, -, -, p7⟩ := C7_distributeWeights_errors (T := Unit)
  refine ⟨?_, ?_, ?_⟩
  · refine p1 [jsq (-1)] ⟨jsq (-1), by simp, ?_⟩
    norm_num [isInvalidWeight, jsq]
  · have := p3 [0, 0] (List.cons_ne_nil _ _) (by norm_num [List.forall_mem_cons])
      (by norm_num)
    simpa using this
  · refine p7 [c7DemoZero] ?_
    intro s hs
    rcases List.mem_cons.mp hs with rfl | hs
    · rfl
    · simp at hs

lemma getD_eq_headD_drop {α : Type} :
    ∀ (i : ℕ) (l : List α) (d : α), l.getD i d = (l.drop i).headD d
  | 0, [], _ => rfl
  | 0, _ :: _, _ => rfl
  | _ + 1, [], _ => rfl
  | i + 1, _ :: l, d => getD_eq_headD_drop i l d

lemma drop_succ_tail {α : Type} :
    ∀ (i : ℕ) (l : List α), l.drop (i + 1) = (l.drop i).tail
  | 0, [] => rfl
  | 0, _ :: _ => rfl
  | _ + 1, [] => rfl
  | i + 1, _ :: l => drop_succ_tail i l

/-- The indexed weighted reduce of `createToMean` equals a `zipWith` sum
against the matching suffix of the weights list. -/
lemma weightedSumFrom_some {T : Type} (item : T) (wsAll : List JSVal)
    {scores : List (Scor T)} {vals : List ℚ}
    (h : List.Forall₂ (fun (s : Scor T) (v : ℚ) => s.forItem item = Except.ok v)
      scores vals) :
    ∀ (i : ℕ) (sum : ℚ),
      weightedSumFrom (some wsAll) item i scores sum =
        Except.ok
          (sum + (List.zipWith (fun v w => v * toQ w) vals (wsAll.drop i)).sum) := by
  induction h with
  | nil => intro i sum; simp [weightedSumFrom]
  | @cons s v ss vv hsv htail ih =>
      intro i sum
      simp only [weightedSumFrom]
      rw [hsv, okBind, ih (i + 1) (sum + weightedStep (some wsAll) v i)]
      cases hd : wsAll.drop i with
      | nil =>
          have h1 : wsAll.getD i none = none := by
            rw [getD_eq_headD_drop, hd]
            rfl
          have h2 : wsAll.drop (i + 1) = [] := by
            rw [drop_succ_tail, hd]
            rfl
          rw [h2]
          simp only [weightedStep]
          rw [h1]
          simp [toQ]
      | cons w rest =>
          have h1 : wsAll.getD i none = w := by
            rw [getD_eq_headD_drop, hd]
            rfl
          have h2 : wsAll.drop (i + 1) = rest := by
            rw [drop_succ_tail, hd]
            rfl
          rw [h2]
          simp only [weightedStep, h1, List.zipWith_cons_cons, List.sum_cons,
            Except.ok.injEq]
          ring

/-- The unweighted reduce of `createToMean` sums the per-Score values. -/
lemma weightedSumFrom_none {T : Type} (item : T)
    {scores : List (Scor T)} {vals : List ℚ}
    (h : List.Forall₂ (fun (s : Scor T) (v : ℚ) => s.forItem item = Except.ok v)
      scores vals) :
    ∀ (i : ℕ) (sum : ℚ),
      weightedSumFrom none item i scores sum = Except.ok (sum + vals.sum) := by
  induction h with
  | nil => intro i sum; simp [weightedSumFrom]
  | @cons s v ss vv hsv htail ih =>
      intro i sum
      simp only [weightedSumFrom]
      rw [hsv, okBind, ih (i + 1) (sum + weightedStep none v i)]
      simp only [weightedStep, List.sum_cons, Except.ok.injEq]
      ring

/-- The weight validation passes when the lengths match and
`assertWeights` answers `true`. -/
lemma validateWeights_ok {T : Type} (scores : List (Scor T)) :
    ∀ weights : Option (List JSVal),
      (∀ ws, weights = some ws → ws.length = scores.length ∧
        assertWeights ws = Except.ok true) →
      validateWeights scores weights = Except.ok ()
  | none, _ => rfl
  | some ws, hw => by
      obtain ⟨hlen, haw⟩ := hw ws rfl
      show (if ws.length ≠ scores.length then
          Except.error (JSError.typeError "Expected scores and weights to have same length.")
        else do
          let ok ← assertWeights ws
          if ok then Except.ok ()
          else Except.error (JSError.rangeError "Expected all weights to be numeric.")) =
        Except.ok ()
      rw [if_neg (fun hh => hh hlen), haw, okBind, if_pos rfl]

/-- Evaluation of `createToMeanCore` on a single Score when every check
passes: the Score's own `forItem` is returned. -/
lemma createToMeanCore_single {T : Type} (s : Scor T)
    (weights : Option (List JSVal))
    (hok : [s].any
      (fun s => s.toValue.isNone || !(isNumeric s.min) || !(isNumeric s.max)) = false)
    (hw : ∀ ws, weights = some ws → ws.length = 1 ∧
      assertWeights ws = Except.ok true) :
    createToMeanCore [s] weights = Except.ok s.forItem := by
  unfold createToMeanCore
  rw [if_neg (by simp), if_neg (by simp [hok]),
    validateWeights_ok [s] weights (by simpa using hw), okBind]

/-- Evaluation of `createToMeanCore` on two or more Scores when every
check passes: the weighted-reduce mean closure is returned. -/
lemma createToMeanCore_multi {T : Type} (s1 s2 : Scor T) (ss : List (Scor T))
    (weights : Option (List JSVal))
    (hok : (s1 :: s2 :: ss).any
      (fun s => s.toValue.isNone || !(isNumeric s.min) || !(isNumeric s.max)) = false)
    (hw : ∀ ws, weights = some ws → ws.length = (s1 :: s2 :: ss).length ∧
      assertWeights ws = Except.ok true) :
    createToMeanCore (s1 :: s2 :: ss) weights =
      Except.ok (meanClosure (s1 :: s2 :: ss) weights) := by
  unfold createToMeanCore
  rw [if_neg (by simp), if_neg (by simp [hok]),
    validateWeights_ok _ weights hw, okBind]

/-- Mapping finite rationals in: the defined sum is the plain sum. -/
lemma definedSum_jsq (ws : List ℚ) : definedSum (ws.map jsq) = ws.sum := by
  unfold definedSum
  rw [List.map_map]
  have : toQ ∘ jsq = id := by
    funext q
    rfl
  rw [this, List.map_id]

/-- `assertWeights` answers `true` on mapped finite non-negative weights
with nonzero sum. -/
lemma assertWeights_jsq_true {ws : List ℚ} (hne : ws ≠ []) (hpos : ∀ w ∈ ws, 0 ≤ w)
    (hsum : ws.sum ≠ 0) : assertWeights (ws.map jsq) = Except.ok true := by
  obtain ⟨hval, hds, huc⟩ := jsq_weights_facts ws hpos
  rw [assertWeights_valid hval (by simpa using hne), if_pos huc,
    if_neg (by rw [hds]; exact hsum)]

/-- The mean closure with mapped weights computes the claimed weighted
arithmetic mean. -/
lemma meanClosure_weighted {T : Type} {scores : List (Scor T)} (ws : List ℚ)
    (item : T) {vals : List ℚ}
    (hv : List.Forall₂ (fun (s : Scor T) v => s.forItem item = Except.ok v)
      scores vals) :
    meanClosure scores (some (ws.map jsq)) item =
      Except.ok ((List.zipWith (fun v w => v * w) vals ws).sum / ws.sum) := by
  unfold meanClosure
  rw [weightedSumFrom_some item (ws.map jsq) hv 0 0, okBind, List.drop_zero,
    List.zipWith_map_right]
  show Except.ok ((0 + (List.zipWith (fun v w => v * w) vals ws).sum) /
    ((ws.map jsq).foldl toNumericSum 0)) = _
  rw [foldl_toNumericSum, definedSum_jsq]
  simp only [zero_add]

/-- The mean closure without weights computes the claimed arithmetic
mean. -/
lemma meanClosure_unweighted {T : Type} {scores : List (Scor T)}
    (item : T) {vals : List ℚ}
    (hv : List.Forall₂ (fun (s : Scor T) v => s.forItem item = Except.ok v)
      scores vals) :
    meanClosure scores none item = Except.ok (vals.sum / (scores.length : ℚ)) := by
  unfold meanClosure
  rw [weightedSumFrom_none item hv 0 0, okBind, zero_add]

/-- Pointwise-equal step functions give the same `mapM`. -/
lemma mapM_congr_mem {α β : Type} {f g : α → Except JSError β} :
    ∀ {l : List α}, (∀ a ∈ l, f a = g a) → l.mapM f = l.mapM g := by
  intro l
  induction l with
  | nil => intro _; rfl
  | cons a l ih =>
      intro h
      rw [List.mapM_cons, List.mapM_cons, h a (List.mem_cons_self _ _),
        ih (fun a ha => h a (List.mem_cons_of_mem _ ha))]

/-- Looking every key of an aligned, duplicate-free weights dict up
returns its values in order. -/
lemma mapM_lookup_aligned :
    ∀ (wsRec : List (String × JSVal)),
      (wsRec.map Prod.fst).Nodup →
      (wsRec.map Prod.fst).mapM (fun key =>
        match lookupVal wsRec key with
        | some w => Except.ok w
        | none =>
            Except.error (JSError.typeError "Expected same keys in scores and weights.")) =
      Except.ok (wsRec.map Prod.snd) := by
  intro wsRec
  induction wsRec with
  | nil => intro _; rfl
  | cons kv rest ih =>
      intro hnd
      rw [List.map_cons, List.mapM_cons]
      have hhead : lookupVal (kv :: rest) kv.1 = some kv.2 := by
        unfold lookupVal
        rw [List.find?_cons_of_pos _ (by simp)]
        rfl
      rw [hhead, okBind]
      have hnd' : (rest.map Prod.fst).Nodup := (List.nodup_cons.mp hnd).2
      have hnotmem : kv.1 ∉ rest.map Prod.fst := (List.nodup_cons.mp hnd).1
      have hcongr : (rest.map Prod.fst).mapM (fun key =>
          match lookupVal (kv :: rest) key with
          | some w => Except.ok w
          | none =>
              Except.error (JSError.typeError "Expected same keys in scores and weights.")) =
          (rest.map Prod.fst).mapM (fun key =>
          match lookupVal rest key with
          | some w => Except.ok w
          | none =>
              Except.error (JSError.typeError "Expected same keys in scores and weights.")) := by
        refine mapM_congr_mem ?_
        intro key hkey
        have hne : (kv.1 == key) = false := by
          rw [beq_eq_false_iff_ne]
          intro heq
          exact hnotmem (heq ▸ hkey)
        unfold lookupVal
        rw [List.find?_cons_of_neg _ (by simp [hne])]
      rw [hcongr, ih hnd', okBind]
      rfl

/-- A dict `createToMean` with aligned duplicate-free keys reduces to the
list core over the dict's values. -/
lemma createToMeanDict_some_eq {T : Type} (scoresRec : List (String × Scor T))
    (wsRec : List (String × JSVal))
    (heq : scoresRec.map Prod.fst = wsRec.map Prod.fst)
    (hnd : (scoresRec.map Prod.fst).Nodup) :
    createToMeanDict scoresRec (some wsRec) =
      createToMeanCore (scoresRec.map Prod.snd) (some (wsRec.map Prod.snd)) := by
  unfold createToMeanDict
  show ((scoresRec.map Prod.fst).mapM (fun key =>
      match lookupVal wsRec key with
      | some w => Except.ok w
      | none =>
          Except.error (JSError.typeError "Expected same keys in scores and weights.")) >>=
    fun weightsList =>
      createToMeanCore (scoresRec.map Prod.snd) ((some wsRec).map fun _ => weightsList)) = _
  rw [heq, mapM_lookup_aligned wsRec (heq ▸ hnd), okBind]
  rfl

/-- A dict `createToMean` without weights reduces to the list core over
the dict's values. -/
lemma createToMeanDict_none_eq {T : Type} (scoresRec : List (String × Scor T)) :
    createToMeanDict scoresRec none =
      createToMeanCore (scoresRec.map Prod.snd) none := rfl

/-- Member-wise field validity makes the source's `any` check fail. -/
lemma any_bad_false {T : Type} {scores : List (Scor T)}
    (hfields : ∀ s ∈ scores, s.toValue.isSome = true ∧
      isNumeric s.min = true ∧ isNumeric s.max = true) :
    scores.any
      (fun s => s.toValue.isNone || !(isNumeric s.min) || !(isNumeric s.max)) = false := by
  rw [List.any_eq_false]
  intro s hs
  obtain ⟨h1, h2, h3⟩ := hfields s hs
  rcases Option.isSome_iff_exists.mp h1 with ⟨tv, htv⟩
  simp [htv, h2, h3]

/-- The weighted formula for the list core, single-Score shortcut included. -/
lemma core_weighted_formula {T : Type} {scores : List (Scor T)} {ws : List ℚ}
    {f : T → Except JSError ℚ} (item : T) {vals : List ℚ}
    (hfields : ∀ s ∈ scores, s.toValue.isSome = true ∧
      isNumeric s.min = true ∧ isNumeric s.max = true)
    (hlen : ws.length = scores.length)
    (hpos : ∀ w ∈ ws, 0 ≤ w) (hsum : ws.sum ≠ 0)
    (h : createToMeanCore scores (some (ws.map jsq)) = Except.ok f)
    (hv : List.Forall₂ (fun (s : Scor T) v => s.forItem item = Except.ok v)
      scores vals) :
    f item = Except.ok ((List.zipWith (fun v w => v * w) vals ws).sum / ws.sum) := by
  have hwne : ws ≠ [] := fun hh => hsum (by simp [hh])
  have haw := assertWeights_jsq_true hwne hpos hsum
  have hwprop : ∀ ws', some (ws.map jsq) = some ws' →
      ws'.length = scores.length ∧ assertWeights ws' = Except.ok true := by
    intro ws' hws'
    injection hws' with hws'
    subst hws'
    exact ⟨by simpa using hlen, haw⟩
  cases scores with
  | nil => exact absurd (List.length_eq_zero.mp (by simpa using hlen)) hwne
  | cons s1 rest =>
    cases rest with
    | nil =>
        rw [createToMeanCore_single s1 _ (any_bad_false hfields)
          (by simpa using hwprop)] at h
        injection h with h
        cases hv with
        | cons hsv htail =>
          cases htail
          match ws, hlen, hpos, hsum with
          | [w], _, hpos, hsum =>
              have hw0 : w ≠ 0 := by simpa using hsum
              rw [← h, hsv]
              simp only [List.zipWith_cons_cons, List.zipWith_nil_right, List.sum_cons,
                List.sum_nil, add_zero, Except.ok.injEq]
              rw [mul_div_assoc, div_self hw0, mul_one]
    | cons s2 ss =>
        rw [createToMeanCore_multi s1 s2 ss _ (any_bad_false hfields) hwprop] at h
        injection h with h
        rw [← h, meanClosure_weighted ws item hv]

/-- The unweighted formula for the list core, single-Score shortcut
included. -/
lemma core_unweighted_formula {T : Type} {scores : List (Scor T)}
    {f : T → Except JSError ℚ} (item : T) {vals : List ℚ}
    (hfields : ∀ s ∈ scores, s.toValue.isSome = true ∧
      isNumeric s.min = true ∧ isNumeric s.max = true)
    (hne : scores ≠ [])
    (h : createToMeanCore scores none = Except.ok f)
    (hv : List.Forall₂ (fun (s : Scor T) v => s.forItem item = Except.ok v)
      scores vals) :
    f item = Except.ok (vals.sum / (scores.length : ℚ)) := by
  cases scores with
  | nil => exact absurd rfl hne
  | cons s1 rest =>
    cases rest with
    | nil =>
        rw [createToMeanCore_single s1 none (any_bad_false hfields) (by simp)] at h
        injection h with h
        cases hv with
        | cons hsv htail =>
          cases htail
          rw [← h, hsv]
          simp
    | cons s2 ss =>
        rw [createToMeanCore_multi s1 s2 ss none (any_bad_false hfields) (by simp)] at h
        injection h with h
        rw [← h, meanClosure_unweighted item hv]

/-- C2: for a non-empty collection of valid Scores, the function built by
`createToMean` maps an item to the weighted arithmetic mean
`sum(forItem_i * w_i) / sum(w_i)` when a matching weight collection is
supplied, and to the plain arithmetic mean `sum(forItem_i) / count` when
none is — in both the ordered-list and the keyed-dict shape. -/
theorem C2_createToMean_mean {T : Type} :
    (∀ (scores : List (Scor T)) (ws : List ℚ) (f : T → Except JSError ℚ)
       (item : T) (vals : List ℚ),
       (∀ s ∈ scores, s.toValue.isSome = true ∧ isNumeric s.min = true ∧
         isNumeric s.max = true) →
       ws.length = scores.length → (∀ w ∈ ws, 0 ≤ w) → ws.sum ≠ 0 →
       createToMean scores (some (ws.map jsq)) = Except.ok f →
       List.Forall₂ (fun (s : Scor T) v => s.forItem item = Except.ok v) scores vals →
       f item = Except.ok ((List.zipWith (fun v w => v * w) vals ws).sum / ws.sum)) ∧
    (∀ (scores : List (Scor T)) (f : T → Except JSError ℚ) (item : T) (vals : List ℚ),
       (∀ s ∈ scores, s.toValue.isSome = true ∧ isNumeric s.min = true ∧
         isNumeric s.max = true) →
       scores ≠ [] →
       createToMean scores none = Except.ok f →
       List.Forall₂ (fun (s : Scor T) v => s.forItem item = Except.ok v) scores vals →
       f item = Except.ok (vals.sum / (scores.length : ℚ))) ∧
    (∀ (scoresRec : List (String × Scor T)) (wsRec : List (String × ℚ))
       (f : T → Except JSError ℚ) (item : T) (vals : List ℚ),
       scoresRec.map Prod.fst = wsRec.map Prod.fst →
       (scoresRec.map Prod.fst).Nodup →
       (∀ s ∈ scoresRec.map Prod.snd, s.toValue.isSome = true ∧
         isNumeric s.min = true ∧ isNumeric s.max = true) →
       (∀ kv ∈ wsRec, 0 ≤ kv.2) → (wsRec.map Prod.snd).sum ≠ 0 →
       createToMeanDict scoresRec (some (wsRec.map fun kv => (kv.1, jsq kv.2))) =
         Except.ok f →
       List.Forall₂ (fun (s : Scor T) v => s.forItem item = Except.ok v)
         (scoresRec.map Prod.snd) vals →
       f item = Except.ok
         ((List.zipWith (fun v w => v * w) vals (wsRec.map Prod.snd)).sum /
           (wsRec.map Prod.snd).sum)) ∧
    (∀ (scoresRec : List (String × Scor T)) (f : T → Except JSError ℚ)
       (item : T) (vals : List ℚ),
       (∀ s ∈ scoresRec.map Prod.snd, s.toValue.isSome = true ∧
         isNumeric s.min = true ∧ isNumeric s.max = true) →
       scoresRec ≠ [] →
       createToMeanDict scoresRec none = Except.ok f →
       List.Forall₂ (fun (s : Scor T) v => s.forItem item = Except.ok v)
         (scoresRec.map Prod.snd) vals →
       f item = Except.ok (vals.sum / (scoresRec.length : ℚ))) := by
  refine ⟨?_, ?_, ?_, ?_⟩
  · intro scores ws f item vals hfields hlen hpos hsum h hv
    exact core_weighted_formula item hfields hlen hpos hsum h hv
  · intro scores f item vals hfields hne h hv
    exact core_unweighted_formula item hfields hne h hv
  · intro scoresRec wsRec f item vals heq hnd hfields hpos hsum h hv
    rw [createToMeanDict_some_eq scoresRec (wsRec.map fun kv => (kv.1, jsq kv.2))
      (by rw [List.map_map]; exact heq) hnd] at h
    have hsnd : (wsRec.map fun kv => (kv.1, jsq kv.2)).map Prod.snd =
        (wsRec.map Prod.snd).map jsq := by
      rw [List.map_map, List.map_map]
      rfl
    rw [hsnd] at h
    have hlen : (wsRec.map Prod.snd).length = (scoresRec.map Prod.snd).length := by
      have := congrArg List.length heq
      simpa using this.symm
    refine core_weighted_formula item hfields hlen ?_ hsum h hv
    intro w hw
    rcases List.mem_map.mp hw with ⟨kv, hkv, rfl⟩
    exact hpos kv hkv
  · intro scoresRec f item vals hfields hne h hv
    rw [createToMeanDict_none_eq] at h
    have := core_unweighted_formula item hfields (by simpa using hne) h hv
    simpa using this

/-- Concrete Score over range `[0, 10]` extracting the item itself, for
the C2 witness. -/
def c2DemoA : Scor ℚ :=
  { min := jsq 0, max := jsq 10, toValue := some (fun q : ℚ => jsq q), weight := none,
    forValue := fun v => Except.ok (rangedForValue 0 10 v),
    forItem := fun item => Except.ok (rangedForValue 0 10 ((fun q : ℚ => jsq q) item)) }

/-- Concrete Score over range `[0, 4]` extracting the item itself, for
the C2 witness. -/
def c2DemoB : Scor ℚ :=
  { min := jsq 0, max := jsq 4, toValue := some (fun q : ℚ => jsq q), weight := none,
    forValue := fun v => Except.ok (rangedForValue 0 4 v),
    forItem := fun item => Except.ok (rangedForValue 0 4 ((fun q : ℚ => jsq q) item)) }

/-- C2 witness: at item 2 the two demo Scores score 0.2 and 0.5, and the
weighted mean with weights `[1, 3]` is `(0.2·1 + 0.5·3)/4 = 0.425`. -/
theorem C2_createToMean_mean_witness :
    ∃ f, createToMean [c2DemoA, c2DemoB] (some (([1, 3] : List ℚ).map jsq)) =
        Except.ok f ∧
      f 2 = Except.ok (17/40) := by
  have hfields : ∀ s ∈ [c2DemoA, c2DemoB], s.toValue.isSome = true ∧
      isNumeric s.min = true ∧ isNumeric s.max = true := by
    intro s hs
    rcases List.mem_cons.mp hs with rfl | hs
    · exact ⟨rfl, rfl, rfl⟩
    · rcases List.mem_cons.mp hs with rfl | hs
      · exact ⟨rfl, rfl, rfl⟩
      · simp at hs
  have haw : assertWeights (([1, 3] : List ℚ).map jsq) = Except.ok true :=
    assertWeights_jsq_true (List.cons_ne_nil _ _)
      (by norm_num [List.forall_mem_cons]) (by norm_num)
  have h : createToMean [c2DemoA, c2DemoB] (some (([1, 3] : List ℚ).map jsq)) =
      Except.ok (meanClosure [c2DemoA, c2DemoB] (some (([1, 3] : List ℚ).map jsq))) := by
    refine createToMeanCore_multi c2DemoA c2DemoB [] _ (any_bad_false hfields) ?_
    intro ws' hws'
    injection hws' with hws'
    subst hws'
    exact ⟨rfl, haw⟩
  have hv : List.Forall₂ (fun (s : Scor ℚ) v => s.forItem 2 = Except.ok v)
      [c2DemoA, c2DemoB] [1/5, 1/2] := by
    refine List.Forall₂.cons ?_ (List.Forall₂.cons ?_ List.Forall₂.nil)
    · show Except.ok (rangedForValue 0 10 (jsq 2)) = Except.ok (1/5)
      norm_num [rangedForValue, jsq]
    · show Except.ok (rangedForValue 0 4 (jsq 2)) = Except.ok (1/2)
      norm_num [rangedForValue, jsq]
  refine ⟨_, h, ?_⟩
  have happ := (C2_createToMean_mean (T := ℚ)).1 [c2DemoA, c2DemoB] [1, 3] _ 2 [1/5, 1/2]
    hfields (by simp) (by norm_num [List.forall_mem_cons]) (by norm_num) h hv
  rw [happ]
  norm_num

/-- A Score built by the constructor whose `toValue`, `min` and `max` are
all configured scores every item into `[0, 1]` without throwing. -/
lemma forItem_bounds {T : Type} {s : Scor T}
    (hb : ∃ o : OptionsArg T, scor o = Except.ok s)
    (htv : s.toValue.isSome = true) (hmn : isNumeric s.min = true)
    (hmx : isNumeric s.max = true) (item : T) :
    ∃ v, s.forItem item = Except.ok v ∧ 0 ≤ v ∧ v ≤ 1 := by
  obtain ⟨o, ho⟩ := hb
  obtain ⟨h1, h2, h3, -, hcases⟩ := scor_ok_inv ho
  rcases hcases with ⟨hnone, -, -⟩ | ⟨-, -, hfi⟩ | ⟨mn, mx, -, -, hlt, -, hfi⟩
  · rcases hnone with hn | hn
    · rw [h1, hn] at hmn
      simp [isNumeric] at hmn
    · rw [h2, hn] at hmx
      simp [isNumeric] at hmx
  · exact ⟨0, by rw [hfi], le_refl 0, by norm_num⟩
  · rcases hfi with ⟨tv, -, hfi⟩ | ⟨htv', -⟩
    · obtain ⟨hb1, hb2⟩ := rangedForValue_bounds mn mx hlt (tv item)
      exact ⟨rangedForValue mn mx (tv item), by rw [hfi], hb1, hb2⟩
    · rw [h3, htv'] at htv
      simp at htv

/-- A per-item value list exists for any collection of Scores whose
`forItem` is total and bounded. -/
lemma vals_exist {T : Type} {scores : List (Scor T)} (item : T)
    (h : ∀ s ∈ scores, ∃ v, s.forItem item = Except.ok v ∧ 0 ≤ v ∧ v ≤ 1) :
    ∃ vals, List.Forall₂ (fun (s : Scor T) v => s.forItem item = Except.ok v)
      scores vals ∧ ∀ v ∈ vals, 0 ≤ v ∧ v ≤ 1 := by
  induction scores with
  | nil => exact ⟨[], List.Forall₂.nil, by simp⟩
  | cons s ss ih =>
      obtain ⟨v, hv, hvb⟩ := h s (List.mem_cons_self _ _)
      obtain ⟨vals, hf, hbs⟩ := ih (fun s hs => h s (List.mem_cons_of_mem _ hs))
      refine ⟨v :: vals, List.Forall₂.cons hv hf, ?_⟩
      intro x hx
      rcases List.mem_cons.mp hx with rfl | hx
      · exact hvb
      · exact hbs x hx

/-- Pointwise products of `[0,1]` values against non-negative weights sum
to something between 0 and the weight sum. -/
lemma zip_mul_bounds :
    ∀ (vals ws : List ℚ), vals.length = ws.length →
      (∀ v ∈ vals, 0 ≤ v ∧ v ≤ 1) → (∀ w ∈ ws, 0 ≤ w) →
      0 ≤ (List.zipWith (fun v w => v * w) vals ws).sum ∧
      (List.zipWith (fun v w => v * w) vals ws).sum ≤ ws.sum
  | [], [], _, _, _ => by simp
  | [], _ :: _, h, _, _ => by simp at h
  | _ :: _, [], h, _, _ => by simp at h
  | v :: vals, w :: ws, h, hv, hw => by
      obtain ⟨ih1, ih2⟩ := zip_mul_bounds vals ws (by simpa using h)
        (fun x hx => hv x (List.mem_cons_of_mem _ hx))
        (fun x hx => hw x (List.mem_cons_of_mem _ hx))
      obtain ⟨hv0, hv1⟩ := hv v (List.mem_cons_self _ _)
      have hw0 := hw w (List.mem_cons_self _ _)
      simp only [List.zipWith_cons_cons, List.sum_cons]
      constructor
      · exact add_nonneg (mul_nonneg hv0 hw0) ih1
      · exact add_le_add (mul_le_of_le_one_left hw0 hv1) ih2

/-- A list of values bounded by 1 sums to at most its length. -/
lemma sum_le_length {vals : List ℚ} (h : ∀ v ∈ vals, v ≤ 1) :
    vals.sum ≤ (vals.length : ℚ) := by
  induction vals with
  | nil => simp
  | cons v vals ih =>
      simp only [List.sum_cons, List.length_cons, Nat.cast_add, Nat.cast_one]
      have := ih (fun x hx => h x (List.mem_cons_of_mem _ hx))
      have hv := h v (List.mem_cons_self _ _)
      linarith

/-- C4: `createToMean`, on inputs it accepts (constructor-built Scores
with `toValue` and numeric bounds; weights — when supplied — matching in
length, finite, non-negative, summing positively), returns a function
whose every value is a number in `[0, 1]` — list and dict shapes, with
and without weights. -/
theorem C4_createToMean_bounds {T : Type} :
    (∀ (scores : List (Scor T)) (ws : List ℚ) (f : T → Except JSError ℚ),
       (∀ s ∈ scores, (∃ o : OptionsArg T, scor o = Except.ok s) ∧
         s.toValue.isSome = true ∧ isNumeric s.min = true ∧ isNumeric s.max = true) →
       ws.length = scores.length → (∀ w ∈ ws, 0 ≤ w) → 0 < ws.sum →
       createToMean scores (some (ws.map jsq)) = Except.ok f →
       ∀ item, ∃ q, f item = Except.ok q ∧ 0 ≤ q ∧ q ≤ 1) ∧
    (∀ (scores : List (Scor T)) (f : T → Except JSError ℚ),
       (∀ s ∈ scores, (∃ o : OptionsArg T, scor o = Except.ok s) ∧
         s.toValue.isSome = true ∧ isNumeric s.min = true ∧ isNumeric s.max = true) →
       scores ≠ [] →
       createToMean scores none = Except.ok f →
       ∀ item, ∃ q, f item = Except.ok q ∧ 0 ≤ q ∧ q ≤ 1) ∧
    (∀ (scoresRec : List (String × Scor T)) (wsRec : List (String × ℚ))
       (f : T → Except JSError ℚ),
       scoresRec.map Prod.fst = wsRec.map Prod.fst →
       (scoresRec.map Prod.fst).Nodup →
       (∀ s ∈ scoresRec.map Prod.snd, (∃ o : OptionsArg T, scor o = Except.ok s) ∧
         s.toValue.isSome = true ∧ isNumeric s.min = true ∧ isNumeric s.max = true) →
       (∀ kv ∈ wsRec, 0 ≤ kv.2) → 0 < (wsRec.map Prod.snd).sum →
       createToMeanDict scoresRec (some (wsRec.map fun kv => (kv.1, jsq kv.2))) =
         Except.ok f →
       ∀ item, ∃ q, f item = Except.ok q ∧ 0 ≤ q ∧ q ≤ 1) ∧
    (∀ (scoresRec : List (String × Scor T)) (f : T → Except JSError ℚ),
       (∀ s ∈ scoresRec.map Prod.snd, (∃ o : OptionsArg T, scor o = Except.ok s) ∧
         s.toValue.isSome = true ∧ isNumeric s.min = true ∧ isNumeric s.max = true) →
       scoresRec ≠ [] →
       createToMeanDict scoresRec none = Except.ok f →
       ∀ item, ∃ q, f item = Except.ok q ∧ 0 ≤ q ∧ q ≤ 1) := by
  have weighted : ∀ (scores : List (Scor T)) (ws : List ℚ) (f : T → Except JSError ℚ),
      (∀ s ∈ scores, (∃ o : OptionsArg T, scor o = Except.ok s) ∧
        s.toValue.isSome = true ∧ isNumeric s.min = true ∧ isNumeric s.max = true) →
      ws.length = scores.length → (∀ w ∈ ws, 0 ≤ w) → 0 < ws.sum →
      createToMeanCore scores (some (ws.map jsq)) = Except.ok f →
      ∀ item, ∃ q, f item = Except.ok q ∧ 0 ≤ q ∧ q ≤ 1 := by
    intro scores ws f hb hlen hpos hsum h item
    obtain ⟨vals, hv, hbs⟩ := vals_exist item (fun s hs =>
      forItem_bounds (hb s hs).1 (hb s hs).2.1 (hb s hs).2.2.1 (hb s hs).2.2.2 item)
    have heq := core_weighted_formula item (fun s hs => (hb s hs).2) hlen hpos
      (ne_of_gt hsum) h hv
    have hvlen : vals.length = ws.length := by
      rw [hv.length_eq] at hlen
      omega
    obtain ⟨hz0, hz1⟩ := zip_mul_bounds vals ws hvlen hbs hpos
    exact ⟨_, heq, div_nonneg hz0 (le_of_lt hsum), (div_le_one hsum).mpr hz1⟩
  have unweighted : ∀ (scores : List (Scor T)) (f : T → Except JSError ℚ),
      (∀ s ∈ scores, (∃ o : OptionsArg T, scor o = Except.ok s) ∧
        s.toValue.isSome = true ∧ isNumeric s.min = true ∧ isNumeric s.max = true) →
      scores ≠ [] →
      createToMeanCore scores none = Except.ok f →
      ∀ item, ∃ q, f item = Except.ok q ∧ 0 ≤ q ∧ q ≤ 1 := by
    intro scores f hb hne h item
    obtain ⟨vals, hv, hbs⟩ := vals_exist item (fun s hs =>
      forItem_bounds (hb s hs).1 (hb s hs).2.1 (hb s hs).2.2.1 (hb s hs).2.2.2 item)
    have heq := core_unweighted_formula item (fun s hs => (hb s hs).2) hne h hv
    have hn : 0 < (scores.length : ℚ) := by
      have : scores.length ≠ 0 := fun hh => hne (List.length_eq_zero.mp hh)
      positivity
    have hsum0 : 0 ≤ vals.sum := List.sum_nonneg (fun v hv' => (hbs v hv').1)
    have hsum1 : vals.sum ≤ (scores.length : ℚ) := by
      have := sum_le_length (fun v hv' => (hbs v hv').2)
      rw [hv.length_eq]
      exact this
    exact ⟨_, heq, div_nonneg hsum0 (le_of_lt hn), (div_le_one hn).mpr hsum1⟩
  refine ⟨fun scores ws f hb hlen hpos hsum h => weighted scores ws f hb hlen hpos hsum h,
          fun scores f hb hne h => unweighted scores f hb hne h, ?_, ?_⟩
  · intro scoresRec wsRec f heq hnd hb hpos hsum h
    rw [createToMeanDict_some_eq scoresRec (wsRec.map fun kv => (kv.1, jsq kv.2))
      (by rw [List.map_map]; exact heq) hnd] at h
    have hsnd : (wsRec.map fun kv => (kv.1, jsq kv.2)).map Prod.snd =
        (wsRec.map Prod.snd).map jsq := by
      rw [List.map_map, List.map_map]
      rfl
    rw [hsnd] at h
    have hlen : (wsRec.map Prod.snd).length = (scoresRec.map Prod.snd).length := by
      have := congrArg List.length heq
      simpa using this.symm
    refine weighted _ _ f hb hlen ?_ hsum h
    intro w hw
    rcases List.mem_map.mp hw with ⟨kv, hkv, rfl⟩
    exact hpos kv hkv
  · intro scoresRec f hb hne h
    rw [createToMeanDict_none_eq] at h
    exact unweighted _ f hb (by simpa using hne) h

/-- C4 witness: the weighted mean of the two demo Scores at item 2 is
0.425, inside `[0, 1]`. -/
theorem C4_createToMean_bounds_witness :
    ∃ f, createToMean [c2DemoA, c2DemoB] (some (([1, 3] : List ℚ).map jsq)) =
        Except.ok f ∧
      ∃ q, f 2 = Except.ok q ∧ 0 ≤ q ∧ q ≤ 1 := by
  have hA : scor (⟨jsq 0, jsq 10, some (fun (q : ℚ) => jsq q), none⟩ : OptionsArg ℚ) =
      Except.ok c2DemoA := by
    unfold scor c2DemoA
    norm_num [isNumeric, isInvalidWeight, jsq]
  have hB : scor (⟨jsq 0, jsq 4, some (fun (q : ℚ) => jsq q), none⟩ : OptionsArg ℚ) =
      Except.ok c2DemoB := by
    unfold scor c2DemoB
    norm_num [isNumeric, isInvalidWeight, jsq]
  have hb : ∀ s ∈ [c2DemoA, c2DemoB], (∃ o : OptionsArg ℚ, scor o = Except.ok s) ∧
      s.toValue.isSome = true ∧ isNumeric s.min = true ∧ isNumeric s.max = true := by
    intro s hs
    rcases List.mem_cons.mp hs with rfl | hs
    · exact ⟨⟨_, hA⟩, rfl, rfl, rfl⟩
    · rcases List.mem_cons.mp hs with rfl | hs
      · exact ⟨⟨_, hB⟩, rfl, rfl, rfl⟩
      · simp at hs
  have haw : assertWeights (([1, 3] : List ℚ).map jsq) = Except.ok true :=
    assertWeights_jsq_true (List.cons_ne_nil _ _)
      (by norm_num [List.forall_mem_cons]) (by norm_num)
  have h : createToMean [c2DemoA, c2DemoB] (some (([1, 3] : List ℚ).map jsq)) =
      Except.ok (meanClosure [c2DemoA, c2DemoB] (some (([1, 3] : List ℚ).map jsq))) := by
    refine createToMeanCore_multi c2DemoA c2DemoB [] _
      (any_bad_false (fun s hs => (hb s hs).2)) ?_
    intro ws' hws'
    injection hws' with hws'
    subst hws'
    exact ⟨rfl, haw⟩
  obtain ⟨q, hq, h0, h1⟩ := (C4_createToMean_bounds (T := ℚ)).1 [c2DemoA, c2DemoB]
    [1, 3] _ hb (by simp) (by norm_num [List.forall_mem_cons]) (by norm_num) h 2
  exact ⟨_, h, q, hq, h0, h1⟩

/-- C6: `createToMean` fails eagerly at creation time — no function is
returned — with a `TypeError` when the Score collection is empty
(whatever the weights argument), and with a `TypeError` when any Score
lacks a configured `toValue`, a numeric `min` or a numeric `max`; list
and dict shapes alike. -/
theorem C6_createToMean_eager {T : Type} :
    (∀ weights, createToMean ([] : List (Scor T)) weights =
       Except.error (JSError.typeError "Expected at least one element in scores.")) ∧
    (∀ (scores : List (Scor T)) weights, scores ≠ [] →
       (∃ s ∈ scores, s.toValue = none ∨ isNumeric s.min = false ∨
         isNumeric s.max = false) →
       createToMean scores weights =
         Except.error
           (JSError.typeError "Expected all scores to have toValue, numeric min and max.")) ∧
    (∀ weights, createToMeanDict ([] : List (String × Scor T)) weights =
       Except.error (JSError.typeError "Expected at least one element in scores.")) ∧
    (∀ scoresRec : List (String × Scor T), scoresRec ≠ [] →
       (∃ kv ∈ scoresRec, kv.2.toValue = none ∨ isNumeric kv.2.min = false ∨
         isNumeric kv.2.max = false) →
       createToMeanDict scoresRec none =
         Except.error
           (JSError.typeError "Expected all scores to have toValue, numeric min and max.")) := by
  have hlist : ∀ (scores : List (Scor T)) weights, scores ≠ [] →
      (∃ s ∈ scores, s.toValue = none ∨ isNumeric s.min = false ∨
        isNumeric s.max = false) →
      createToMeanCore scores weights =
        Except.error
          (JSError.typeError "Expected all scores to have toValue, numeric min and max.") := by
    intro scores weights hne hbad
    unfold createToMeanCore
    rw [if_neg (fun hh => hne (List.length_eq_zero.mp hh)), if_pos ?_]
    rw [List.any_eq_true]
    rcases hbad with ⟨s, hs, hcase⟩
    refine ⟨s, hs, ?_⟩
    rcases hcase with hc | hc | hc <;> simp [hc]
  refine ⟨?_, ?_, ?_, ?_⟩
  · intro weights
    cases weights <;> rfl
  · exact hlist
  · intro weights
    cases weights <;> rfl
  · intro scoresRec hne hbad
    rw [createToMeanDict_none_eq]
    refine hlist _ none (by simpa using hne) ?_
    rcases hbad with ⟨kv, hkv, hc⟩
    exact ⟨kv.2, List.mem_map.mpr ⟨kv, hkv, rfl⟩, hc⟩

/-- Concrete Score with a missing `max` (so scoring is not allowed), used
by the C6 witness. -/
def c6Demo : Scor Unit :=
  { min := jsq 0, max := none, toValue := some (fun _ => jsq 1), weight := none,
    forValue := fun _ => Except.error (JSError.rangeError INVALID_RANGE),
    forItem := fun _ => Except.error (JSError.rangeError INVALID_RANGE) }

/-- C6 witness: the empty collection and a Score missing `max`, in both
shapes. -/
theorem C6_createToMean_eager_witness :
    createToMean ([] : List (Scor Unit)) none =
      Except.error (JSError.typeError "Expected at least one element in scores.") ∧
    createToMean [c6Demo] none =
      Except.error
        (JSError.typeError "Expected all scores to have toValue, numeric min and max.") ∧
    createToMeanDict [("a", c6Demo)] none =
      Except.error
        (JSError.typeError "Expected all scores to have toValue, numeric min and max.") := by
  obtain ⟨p1, p2, -, p4⟩ := C6_createToMean_eager (T := Unit)
  refine ⟨p1 none, ?_, ?_⟩
  · exact p2 [c6Demo] none (List.cons_ne_nil _ _)
      ⟨c6Demo, List.mem_cons_self _ _, Or.inr (Or.inr rfl)⟩
  · exact p4 [("a", c6Demo)] (List.cons_ne_nil _ _)
      ⟨("a", c6Demo), List.mem_cons_self _ _, Or.inr (Or.inr rfl)⟩

end ScorSpec
